import Mathlib

/-!
Verification of the kilo-style terminal text editor (src/kilo.c).

All byte sequences (file contents, row text, rendered text, terminal
replies, keyboard input) are modelled as lists of natural numbers,
one per 8-bit byte.  Keys returned by editorReadKey are modelled by the
same numeric space the C code uses: plain bytes 0..255 plus the
editorKey enum values BACKSPACE = 127, ARROW_LEFT = 1000,
ARROW_RIGHT = 1001, ARROW_UP = 1002, ARROW_DOWN = 1003, DEL_KEY = 1004,
HOME_KEY = 1005, END_KEY = 1006, PAGE_UP = 1007, PAGE_DOWN = 1008.
C ints are modelled as Int where subtraction or sentinel values
(-1) occur, and as Nat for list indices.
-/

/-- KILO_TAB_STOP from kilo.c. -/
def KILO_TAB_STOP : Nat := 8

/-- KILO_QUIT_TIMES from kilo.c. -/
def KILO_QUIT_TIMES : Int := 3

/-- The highlight classes of enum editorHighlight (HL_NORMAL .. HL_MATCH).
The HL_STRING class is called str and HL_MATCH is called matched. -/
inductive HL where
  | normal
  | comment
  | mlcomment
  | keyword1
  | keyword2
  | str
  | number
  | matched
deriving DecidableEq, Repr

/-- The function is_separator from kilo.c: C isspace, the NUL terminator,
or one of the sixteen punctuation bytes comma, period, parens, plus,
minus, slash, star, equals, tilde, percent, angle brackets, square
brackets, semicolon. -/
def is_separator (c : Nat) : Bool :=
  (c = 32 ∨ (9 ≤ c ∧ c ≤ 13)) ∨ c = 0 ∨
    c ∈ [44, 46, 40, 41, 43, 45, 47, 42, 61, 126, 37, 60, 62, 91, 93, 59]

/-- C isdigit. -/
def isDigitByte (c : Nat) : Bool := 48 ≤ c ∧ c ≤ 57

/-- C iscntrl (for bytes; values 0..31 and 127). -/
def isCntrlByte (c : Nat) : Bool := c < 32 ∨ c = 127

/-- The loop body of editorUpdateRow from kilo.c: for a tab, emit one
space and then spaces until the write index idx is a multiple of
KILO_TAB_STOP (in total KILO_TAB_STOP - idx % KILO_TAB_STOP spaces);
any other byte passes through.  idx is the current length of the
rendered output. -/
def renderGo (idx : Nat) : List Nat → List Nat
  | [] => []
  | c :: cs =>
    if c = 9 then
      List.replicate (KILO_TAB_STOP - idx % KILO_TAB_STOP) 32 ++
        renderGo (idx + (KILO_TAB_STOP - idx % KILO_TAB_STOP)) cs
    else
      c :: renderGo (idx + 1) cs

/-- The render string built by editorUpdateRow from a row's chars. -/
def renderChars (chars : List Nat) : List Nat := renderGo 0 chars

/-- The loop of editorRowCxToRx from kilo.c: rx is the accumulator, the
second argument is the not-yet-scanned part of chars, the third is the
number of loop iterations still to run (j counts up to cx in C).  When
cx exceeds the chars length the C code reads the NUL terminator and
beyond; those reads are modelled as the byte 0 (not a tab). -/
def cxToRxGo (rx : Nat) : List Nat → Nat → Nat
  | _, 0 => rx
  | [], n + 1 => cxToRxGo (rx + 1) [] n
  | c :: cs, n + 1 =>
    if c = 9 then
      cxToRxGo (rx + ((KILO_TAB_STOP - 1) - rx % KILO_TAB_STOP) + 1) cs n
    else
      cxToRxGo (rx + 1) cs n

/-- editorRowCxToRx from kilo.c. -/
def editorRowCxToRx (chars : List Nat) (cx : Nat) : Nat := cxToRxGo 0 chars cx

/-- The loop of editorRowRxToCx from kilo.c: cur_rx accumulates the
rendered column, cx counts scanned chars; the first time cur_rx
exceeds the target rx the current cx is returned, otherwise the final
cx (the row length) is returned. -/
def rxToCxGo (cur_rx cx rx : Nat) : List Nat → Nat
  | [] => cx
  | c :: cs =>
    let cur2 :=
      if c = 9 then cur_rx + ((KILO_TAB_STOP - 1) - cur_rx % KILO_TAB_STOP) + 1
      else cur_rx + 1
    if cur2 > rx then cx else rxToCxGo cur2 (cx + 1) rx cs

/-- editorRowRxToCx from kilo.c. -/
def editorRowRxToCx (chars : List Nat) (rx : Nat) : Nat := rxToCxGo 0 0 rx chars

/-- The struct editorSyntax from kilo.c.  scs, mcs, mce are the
singleline_comment_start, multiline_comment_start and
multiline_comment_end strings (empty list standing for a NULL or empty
string, whose length test disables the feature, as in the C code);
hlNumbers and hlStrings are the HL_HIGHLIGHT_NUMBERS and
HL_HIGHLIGHT_STRINGS flag bits. -/
structure SynDef where
  filematch : List (List Nat)
  keywords : List (List Nat)
  scs : List Nat
  mcs : List Nat
  mce : List Nat
  hlNumbers : Bool
  hlStrings : Bool
deriving DecidableEq, Repr

/-- The single HLDB entry of kilo.c: the C profile, with
C_HL_extensions and C_HL_keywords (a trailing pipe byte 124 marks the
Keyword2 type keywords, as in the C table). -/
def CSyn : SynDef where
  filematch := [[46, 99], [46, 104], [46, 99, 112, 112]]
  keywords := [
    [115, 119, 105, 116, 99, 104],
    [105, 102],
    [119, 104, 105, 108, 101],
    [102, 111, 114],
    [98, 114, 101, 97, 107],
    [99, 111, 110, 116, 105, 110, 117, 101],
    [114, 101, 116, 117, 114, 110],
    [101, 108, 115, 101],
    [115, 116, 114, 117, 99, 116],
    [117, 110, 105, 111, 110],
    [116, 121, 112, 101, 100, 101, 102],
    [115, 116, 97, 116, 105, 99],
    [101, 110, 117, 109],
    [99, 108, 97, 115, 115],
    [99, 97, 115, 101],
    [105, 110, 116, 124],
    [108, 111, 110, 103, 124],
    [100, 111, 117, 98, 108, 101, 124],
    [102, 108, 111, 97, 116, 124],
    [99, 104, 97, 114, 124],
    [117, 110, 115, 105, 103, 110, 101, 100, 124],
    [115, 105, 103, 110, 101, 100, 124],
    [118, 111, 105, 100, 124]]
  scs := [47, 47]
  mcs := [47, 42]
  mce := [42, 47]
  hlNumbers := true
  hlStrings := true

/-- C memset over a segment of the hl array: set positions
i, i+1, ..., i+len-1 (clipped to the list) to v. -/
def setRange (hl : List HL) (i len : Nat) (v : HL) : List HL :=
  hl.take i ++ List.replicate (min len (hl.length - i)) v ++ hl.drop (i + len)

/-- C strncmp(render + i, pat, pat.length) == 0 for the NUL-free
pattern strings of the syntax tables: pat occurs at offset i. -/
def listPrefixAt (pat s : List Nat) (i : Nat) : Bool := pat.isPrefixOf (s.drop i)

/-- Whether a keyword entry of the C table is a type keyword
(kw2 in kilo.c): its last byte is the pipe marker. -/
def kwIsType (kw : List Nat) : Bool := kw.getLast? = some 124

/-- The keyword bytes to compare (klen bytes in kilo.c): the entry
without its trailing pipe marker, if any. -/
def kwBody (kw : List Nat) : List Nat := if kwIsType kw then kw.dropLast else kw

/-- The keyword-table scan of editorUpdateSyntax: the first entry whose
body occurs at offset i of render and is followed there by a separator
(the read one past the keyword sees the NUL terminator, byte 0, when the
keyword ends the row). -/
def findKeyword (keywords : List (List Nat)) (render : List Nat) (i : Nat) :
    Option (List Nat) :=
  keywords.find? (fun kw =>
    listPrefixAt (kwBody kw) render i ∧
      is_separator (render.getD (i + (kwBody kw).length) 0))

/-- The scanning loop of editorUpdateSyntax from kilo.c.  i is the scan
position, hl the highlight array built so far (initialised all
HL_NORMAL), prev_sep / in_string / in_comment the three state
variables (in_string holds the opening quote byte, 0 when outside).
Each iteration consumes one unit of fuel; the C loop advances i by at
least one byte per iteration for the well-formed C profile, so fuel
render.length + 1 is never exhausted (a degenerate profile with an
empty keyword would make the C loop spin forever).  Returns the final
hl array and the final in_comment state. -/
def synLoop (syn : SynDef) (render : List Nat) :
    Nat → Nat → List HL → Bool → Nat → Bool → List HL × Bool
  | 0, _, hl, _, _, in_comment => (hl, in_comment)
  | fuel + 1, i, hl, prev_sep, in_string, in_comment =>
    if i < render.length then
      let c := render.getD i 0
      let prev_hl := if i > 0 then hl.getD (i - 1) HL.normal else HL.normal
      if syn.scs.length ≠ 0 ∧ in_string = 0 ∧ ¬in_comment ∧
          listPrefixAt syn.scs render i then
        (setRange hl i (render.length - i) HL.comment, in_comment)
      else if syn.mcs.length ≠ 0 ∧ syn.mce.length ≠ 0 ∧ in_string = 0 ∧
          in_comment then
        let hl1 := hl.set i HL.mlcomment
        if listPrefixAt syn.mce render i then
          synLoop syn render fuel (i + syn.mce.length)
            (setRange hl1 i syn.mce.length HL.mlcomment) true in_string false
        else
          synLoop syn render fuel (i + 1) hl1 prev_sep in_string true
      else if syn.mcs.length ≠ 0 ∧ syn.mce.length ≠ 0 ∧ in_string = 0 ∧
          listPrefixAt syn.mcs render i then
        synLoop syn render fuel (i + syn.mcs.length)
          (setRange hl i syn.mcs.length HL.mlcomment) prev_sep in_string true
      else if syn.hlStrings ∧ in_string ≠ 0 then
        let hl1 := hl.set i HL.str
        if c = 92 ∧ i + 1 < render.length then
          synLoop syn render fuel (i + 2) (hl1.set (i + 1) HL.str)
            prev_sep in_string in_comment
        else
          synLoop syn render fuel (i + 1) hl1 true
            (if c = in_string then 0 else in_string) in_comment
      else if syn.hlStrings ∧ (c = 34 ∨ c = 39) then
        synLoop syn render fuel (i + 1) (hl.set i HL.str) prev_sep c in_comment
      else if syn.hlNumbers ∧
          ((isDigitByte c ∧ (prev_sep ∨ prev_hl = HL.number)) ∨
            (c = 46 ∧ prev_hl = HL.number)) then
        synLoop syn render fuel (i + 1) (hl.set i HL.number) false
          in_string in_comment
      else if prev_sep then
        match findKeyword syn.keywords render i with
        | some kw =>
          synLoop syn render fuel (i + (kwBody kw).length)
            (setRange hl i (kwBody kw).length
              (if kwIsType kw then HL.keyword2 else HL.keyword1))
            false in_string in_comment
        | none =>
          synLoop syn render fuel (i + 1) hl (is_separator c)
            in_string in_comment
      else
        synLoop syn render fuel (i + 1) hl (is_separator c)
          in_string in_comment
    else
      (hl, in_comment)

/-- The per-row part of editorUpdateSyntax from kilo.c, for an active
(non-NULL) syntax profile: the hl array is re-allocated to the render
length and memset to HL_NORMAL, then the scanning loop runs with
prev_sep = 1, in_string = 0 and in_comment given by the previous row's
hl_open_comment (the second component of the result is the final
in_comment, which becomes the row's new hl_open_comment). -/
def rowHl (syn : SynDef) (in_comment0 : Bool) (render : List Nat) :
    List HL × Bool :=
  synLoop syn render (render.length + 1) 0
    (List.replicate render.length HL.normal) true 0 in_comment0

/-- The struct erow from kilo.c.  The idx field is represented by the
row's position in the row list (the C code renumbers idx on every
insertion and deletion so that idx always equals the position); size
and rsize are the lengths of chars and render. -/
structure ERow where
  chars : List Nat
  render : List Nat
  hl : List HL
  hl_open_comment : Bool
deriving DecidableEq, Repr

instance : Inhabited ERow := ⟨⟨[], [], [], false⟩⟩

/-- E.row[i] of kilo.c (reads are always in bounds in the C code; out
of range gives the empty row). -/
def rowAt (rows : List ERow) (i : Nat) : ERow := rows.getD i default

/-- The initial in_comment state of editorUpdateSyntax for the row at
position i: row->idx > 0 && E.row[row->idx - 1].hl_open_comment. -/
def prevOpen (rows : List ERow) (i : Nat) : Bool :=
  if i = 0 then false else (rowAt rows (i - 1)).hl_open_comment

/-- The recursion of editorUpdateSyntax across rows: recompute the hl
and hl_open_comment of the row at idx from the previous row's
hl_open_comment, and if hl_open_comment changed and a next row exists,
continue with the next row.  The fuel argument is rows.length - idx,
which is exactly the maximal number of rows the C recursion can touch;
it is never exhausted when the function is entered at idx < length. -/
def updateSyntaxGo (syn : SynDef) : Nat → List ERow → Nat → List ERow
  | 0, rows, _ => rows
  | fuel + 1, rows, idx =>
    let row := rowAt rows idx
    let p := rowHl syn (prevOpen rows idx) row.render
    let changed := row.hl_open_comment ≠ p.2
    let rows' := rows.set idx { row with hl := p.1, hl_open_comment := p.2 }
    if changed ∧ idx + 1 < rows.length then updateSyntaxGo syn fuel rows' (idx + 1)
    else rows'

/-- editorUpdateSyntax from kilo.c, acting on the row at position idx of
the row list.  With no active profile (E.syntax == NULL) the row's hl
is re-allocated to the render length and memset to HL_NORMAL, and the
function returns without touching hl_open_comment or later rows. -/
def editorUpdateSyntaxAt (syn : Option SynDef) (rows : List ERow) (idx : Nat) :
    List ERow :=
  if idx < rows.length then
    match syn with
    | none =>
      rows.set idx
        { rowAt rows idx with
          hl := List.replicate (rowAt rows idx).render.length HL.normal }
    | some s => updateSyntaxGo s (rows.length - idx) rows idx
  else rows

/-- editorUpdateRow from kilo.c, acting on the row at position idx:
rebuild render from chars (tab expansion) and re-run highlighting. -/
def editorUpdateRow (syn : Option SynDef) (rows : List ERow) (idx : Nat) :
    List ERow :=
  let rows1 := rows.set idx
    (let r := rowAt rows idx; { r with render := renderChars r.chars })
  editorUpdateSyntaxAt syn rows1 idx

/-- The status-bar message contents set by editorSetStatusMessage,
modelled by which format call produced them and its numeric or byte
arguments (the 5-second timestamp is not modelled). -/
inductive StatusMsg where
  | none
  | help
  | empty
  | quitWarning (remaining : Int)
  | saveOk (bytes : Int)
  | saveErr
  | saveAborted
  | promptSaveAs (buf : List Nat)
  | promptSearch (buf : List Nat)
deriving DecidableEq, Repr

/-- The struct editorConfig E of kilo.c, together with the static local
quit_times of editorProcessKeypress (a piece of persistent state in the
C code).  numrows is represented by rows.length; statusmsg_time and
orig_termios are not modelled. -/
structure EState where
  cx : Int
  cy : Int
  rx : Int
  rowoff : Int
  coloff : Int
  screenrows : Int
  screencols : Int
  rows : List ERow
  filename : Option (List Nat)
  dirty : Int
  statusmsg : StatusMsg
  syn : Option SynDef
  quit_times : Int
deriving DecidableEq, Repr

instance : Inhabited EState :=
  ⟨⟨0, 0, 0, 0, 0, 0, 0, [], Option.none, 0, StatusMsg.none, Option.none,
    KILO_QUIT_TIMES⟩⟩

/-- E.numrows of kilo.c. -/
def EState.numrows (st : EState) : Int := st.rows.length

/-- editorInsertRow from kilo.c: bounds-check the insertion index,
insert a fresh row with the given chars, run editorUpdateRow on it
(which may re-propagate highlighting), and count an edit. -/
def editorInsertRow (st : EState) (at_ : Int) (s : List Nat) : EState :=
  if at_ < 0 ∨ at_ > st.numrows then st
  else
    let rows := st.rows.insertIdx at_.toNat ⟨s, [], [], false⟩
    { st with rows := editorUpdateRow st.syn rows at_.toNat,
              dirty := st.dirty + 1 }

/-- editorDelRow from kilo.c: bounds-check, remove the row, count an
edit (no rehighlighting of later rows happens in the C code). -/
def editorDelRow (st : EState) (at_ : Int) : EState :=
  if at_ < 0 ∨ at_ ≥ st.numrows then st
  else { st with rows := st.rows.eraseIdx at_.toNat, dirty := st.dirty + 1 }

/-- editorRowInsertChar from kilo.c on the row at position idx: an out
of range insertion index is clamped to the row length, the byte is
inserted, and the row is re-rendered and re-highlighted. -/
def editorRowInsertChar (st : EState) (idx : Nat) (at_ : Int) (c : Nat) :
    EState :=
  let r := rowAt st.rows idx
  let a := if at_ < 0 ∨ at_ > (r.chars.length : Int) then (r.chars.length : Int)
    else at_
  let rows := st.rows.set idx { r with chars := r.chars.insertIdx a.toNat c }
  { st with rows := editorUpdateRow st.syn rows idx, dirty := st.dirty + 1 }

/-- editorRowAppendString from kilo.c on the row at position idx. -/
def editorRowAppendString (st : EState) (idx : Nat) (s : List Nat) : EState :=
  let r := rowAt st.rows idx
  let rows := st.rows.set idx { r with chars := r.chars ++ s }
  { st with rows := editorUpdateRow st.syn rows idx, dirty := st.dirty + 1 }

/-- editorRowDelChar from kilo.c on the row at position idx. -/
def editorRowDelChar (st : EState) (idx : Nat) (at_ : Int) : EState :=
  let r := rowAt st.rows idx
  if at_ < 0 ∨ at_ ≥ (r.chars.length : Int) then st
  else
    let rows := st.rows.set idx { r with chars := r.chars.eraseIdx at_.toNat }
    { st with rows := editorUpdateRow st.syn rows idx, dirty := st.dirty + 1 }

/-- editorInsertChar from kilo.c. -/
def editorInsertChar (st : EState) (c : Nat) : EState :=
  let st := if st.cy = st.numrows then editorInsertRow st st.numrows [] else st
  let st := editorRowInsertChar st st.cy.toNat st.cx c
  { st with cx := st.cx + 1 }

/-- editorInsertNewLine from kilo.c. -/
def editorInsertNewLine (st : EState) : EState :=
  let st :=
    if st.cx = 0 then editorInsertRow st st.cy []
    else
      let row := rowAt st.rows st.cy.toNat
      let st := editorInsertRow st (st.cy + 1) (row.chars.drop st.cx.toNat)
      let row2 := rowAt st.rows st.cy.toNat
      let rows := st.rows.set st.cy.toNat
        { row2 with chars := row2.chars.take st.cx.toNat }
      { st with rows := editorUpdateRow st.syn rows st.cy.toNat }
  { st with cy := st.cy + 1, cx := 0 }

/-- editorDelChar from kilo.c. -/
def editorDelChar (st : EState) : EState :=
  if st.cy = st.numrows then st
  else if st.cx = 0 ∧ st.cy = 0 then st
  else
    let row := rowAt st.rows st.cy.toNat
    if st.cx > 0 then
      let st := editorRowDelChar st st.cy.toNat (st.cx - 1)
      { st with cx := st.cx - 1 }
    else
      let st := { st with
        cx := ((rowAt st.rows (st.cy - 1).toNat).chars.length : Int) }
      let st := editorRowAppendString st (st.cy - 1).toNat row.chars
      let st := editorDelRow st st.cy
      { st with cy := st.cy - 1 }

/-- editorMoveCursor from kilo.c, for key one of ARROW_LEFT (1000),
ARROW_RIGHT (1001), ARROW_UP (1002), ARROW_DOWN (1003). -/
def editorMoveCursor (st : EState) (key : Nat) : EState :=
  let row : Option ERow :=
    if st.cy ≥ st.numrows then Option.none
    else Option.some (rowAt st.rows st.cy.toNat)
  let st :=
    if key = 1000 then
      if st.cx ≠ 0 then { st with cx := st.cx - 1 }
      else if st.cy > 0 then
        { st with cy := st.cy - 1,
                  cx := ((rowAt st.rows (st.cy - 1).toNat).chars.length : Int) }
      else st
    else if key = 1001 then
      match row with
      | Option.some r =>
        if st.cx < (r.chars.length : Int) then { st with cx := st.cx + 1 }
        else if st.cx = (r.chars.length : Int) then
          { st with cy := st.cy + 1, cx := 0 }
        else st
      | Option.none => st
    else if key = 1002 then
      if st.cy ≠ 0 then { st with cy := st.cy - 1 } else st
    else if key = 1003 then
      if st.cy < st.numrows then { st with cy := st.cy + 1 } else st
    else st
  let rowlen : Int :=
    if st.cy ≥ st.numrows then 0
    else ((rowAt st.rows st.cy.toNat).chars.length : Int)
  if st.cx > rowlen then { st with cx := rowlen } else st

/-- editorScroll from kilo.c. -/
def editorScroll (st : EState) : EState :=
  let rx : Int :=
    if st.cy < st.numrows then
      (editorRowCxToRx (rowAt st.rows st.cy.toNat).chars st.cx.toNat : Int)
    else 0
  let rowoff := if st.cy < st.rowoff then st.cy else st.rowoff
  let rowoff := if st.cy ≥ rowoff + st.screenrows then st.cy - st.screenrows + 1
    else rowoff
  let coloff := if rx < st.coloff then rx else st.coloff
  let coloff := if rx ≥ coloff + st.screencols then rx - st.screencols + 1
    else coloff
  { st with rx := rx, rowoff := rowoff, coloff := coloff }

/-- C strstr on a NUL-free haystack: the offset of the first occurrence
of pat in hay (an empty pat matches at offset 0, as strstr does). -/
def strstrOff (hay pat : List Nat) : Option Nat :=
  match hay with
  | [] => if pat.isPrefixOf ([] : List Nat) then Option.some 0 else Option.none
  | _ :: t =>
    if pat.isPrefixOf hay then Option.some 0
    else (strstrOff t pat).map (· + 1)

/-- Replace the hl array of the row at position l (the memcpy into
E.row[l].hl used by the find callback; in a find session the row
lengths never change, so a full replacement is the exact effect). -/
def setRowHl (rows : List ERow) (l : Nat) (h : List HL) : List ERow :=
  rows.set l { rowAt rows l with hl := h }

/-- The static locals of editorFindCallback from kilo.c: last_match,
direction, and the saved_hl_line / saved_hl pair (none when saved_hl
is NULL).  At program start last_match = -1, direction = 1,
saved_hl = NULL, and every callback finalisation (Enter or ESC)
restores exactly these values, so each find session starts from this
state. -/
structure FindState where
  last_match : Int
  direction : Int
  saved : Option (Nat × List HL)
deriving DecidableEq, Repr

/-- The search loop of editorFindCallback: step current by direction,
wrap past either end, and stop at the first row whose render contains
the query; at most numrows rows are visited (the fuel argument). -/
def findSearchGo (query : List Nat) (rows : List ERow) (direction : Int) :
    Nat → Int → Option (Nat × Nat)
  | 0, _ => Option.none
  | fuel + 1, current =>
    let current := current + direction
    let current : Int :=
      if current = -1 then (rows.length : Int) - 1
      else if current = (rows.length : Int) then 0
      else current
    match strstrOff (rowAt rows current.toNat).render query with
    | Option.some off => Option.some (current.toNat, off)
    | Option.none => findSearchGo query rows direction fuel current

/-- The row store as it would look after the pending saved-highlight
restore at the top of editorFindCallback (the memcpy of saved_hl into
the saved line's hl; rows unchanged when saved_hl is NULL). -/
def restoreSaved (fs : FindState) (rows : List ERow) : List ERow :=
  match fs.saved with
  | Option.some lh => setRowHl rows lh.1 lh.2
  | Option.none => rows

/-- The search-and-highlight part of editorFindCallback (everything
after the direction bookkeeping): walk the rows from last_match,
and on the first hit move the cursor to the match, force rowoff to
numrows, save the hit row's hl array and overlay HL_MATCH over the
matched span. -/
def findApply (query : List Nat) (fs : FindState) (st : EState) :
    FindState × EState :=
  match findSearchGo query st.rows fs.direction st.rows.length
      fs.last_match with
  | Option.none => (fs, st)
  | Option.some co =>
    let row := rowAt st.rows co.1
    ({ fs with last_match := (co.1 : Int),
               saved := Option.some (co.1, row.hl) },
     { st with
        cy := (co.1 : Int),
        cx := (editorRowRxToCx row.chars co.2 : Int),
        rowoff := st.numrows,
        rows := setRowHl st.rows co.1
          (setRange row.hl co.2 query.length HL.matched) })

/-- editorFindCallback from kilo.c.  The statics are threaded through
fs; the editor state is read and written through st.  Key numbers:
Enter is 13, ESC is 27, the arrows are 1000..1003.  First the pending
saved highlight, if any, is restored and discarded; Enter and ESC
finalise by resetting last_match and direction; otherwise the arrows
set the direction (any other key restarts the search), a fresh search
forces direction forward, and the search runs. -/
def editorFindCallback (query : List Nat) (key : Nat) (fs : FindState)
    (st : EState) : FindState × EState :=
  let st := { st with rows := restoreSaved fs st.rows }
  let fs := { fs with saved := Option.none }
  if key = 13 ∨ key = 27 then
    ({ fs with last_match := -1, direction := 1 }, st)
  else
    let fs :=
      if key = 1001 ∨ key = 1003 then { fs with direction := 1 }
      else if key = 1000 ∨ key = 1002 then { fs with direction := -1 }
      else { fs with last_match := -1, direction := 1 }
    let fs := if fs.last_match = -1 then { fs with direction := 1 } else fs
    findApply query fs st

/-- Which call site a prompt belongs to (the template string passed to
editorPrompt: the save-as prompt of editorSave or the search prompt of
editorFind). -/
inductive PromptKind where
  | saveAs
  | search
deriving DecidableEq, Repr

/-- The outcome of the editorPrompt loop: blocked when the supplied key
list ran out while the C loop would still be waiting for input;
canceled on ESC (editorPrompt returns NULL); accepted on Enter with a
non-empty buffer (editorPrompt returns the buffer). -/
inductive PromptOut where
  | blocked (st : EState) (fs : FindState) (buf : List Nat)
  | canceled (st : EState) (fs : FindState)
  | accepted (st : EState) (fs : FindState) (buf : List Nat)
deriving DecidableEq, Repr

/-- The prompt status message for the current buffer. -/
def promptMsg (kind : PromptKind) (buf : List Nat) : StatusMsg :=
  match kind with
  | PromptKind.saveAs => StatusMsg.promptSaveAs buf
  | PromptKind.search => StatusMsg.promptSearch buf

/-- Invoke the prompt callback if one was supplied (editorPrompt is
called with editorFindCallback or with NULL). -/
def runCb (cb : Bool) (query : List Nat) (key : Nat) (fs : FindState)
    (st : EState) : FindState × EState :=
  if cb then editorFindCallback query key fs st else (fs, st)

/-- editorPrompt from kilo.c.  Each loop iteration sets the prompt
status message, refreshes the screen (of which only editorScroll
changes editor state), then reads one key from the supplied list.
DEL/Ctrl-H/Backspace erase one byte; ESC cancels; Enter with non-empty
buffer accepts; printable bytes below 128 append; every key reaching
the bottom of the loop invokes the callback with the current buffer. -/
def editorPromptLoop (kind : PromptKind) (cb : Bool) :
    EState → FindState → List Nat → List Nat → PromptOut
  | st, fs, buf, [] =>
    PromptOut.blocked (editorScroll { st with statusmsg := promptMsg kind buf })
      fs buf
  | st, fs, buf, c :: ks =>
    let st := editorScroll { st with statusmsg := promptMsg kind buf }
    if c = 1004 ∨ c = 8 ∨ c = 127 then
      let buf := if buf.length ≠ 0 then buf.dropLast else buf
      let r := runCb cb buf c fs st
      editorPromptLoop kind cb r.2 r.1 buf ks
    else if c = 27 then
      let st := { st with statusmsg := StatusMsg.empty }
      let r := runCb cb buf c fs st
      PromptOut.canceled r.2 r.1
    else if c = 13 then
      if buf.length ≠ 0 then
        let st := { st with statusmsg := StatusMsg.empty }
        let r := runCb cb buf c fs st
        PromptOut.accepted r.2 r.1 buf
      else
        let r := runCb cb buf c fs st
        editorPromptLoop kind cb r.2 r.1 buf ks
    else if ¬isCntrlByte c ∧ c < 128 then
      let buf := buf ++ [c]
      let r := runCb cb buf c fs st
      editorPromptLoop kind cb r.2 r.1 buf ks
    else
      let r := runCb cb buf c fs st
      editorPromptLoop kind cb r.2 r.1 buf ks

/-- The initial value of the find-callback statics (see FindState). -/
def initialFindState : FindState := ⟨-1, 1, Option.none⟩

/-- editorFind from kilo.c: record the cursor and viewport, run the
search prompt with editorFindCallback, and restore the record if the
prompt was cancelled.  Returns none when the key list was exhausted
with the prompt still open. -/
def editorFind (st : EState) (ks : List Nat) : Option EState :=
  let saved_cx := st.cx
  let saved_cy := st.cy
  let saved_coloff := st.coloff
  let saved_rowoff := st.rowoff
  match editorPromptLoop PromptKind.search true st initialFindState [] ks with
  | PromptOut.blocked _ _ _ => Option.none
  | PromptOut.accepted st' _ _ => Option.some st'
  | PromptOut.canceled st' _ =>
    Option.some { st' with cx := saved_cx, cy := saved_cy,
                           coloff := saved_coloff, rowoff := saved_rowoff }

/-- The terminator-stripping loop of editorOpen: while the line is
non-empty and ends in LF (10) or CR (13), drop the last byte. -/
def rstripCRLF (l : List Nat) : List Nat :=
  (l.reverse.dropWhile (fun b => b = 10 ∨ b = 13)).reverse

/-- The getline loop of editorOpen.  acc holds the bytes of the current
line read so far, in reverse.  getline returns lines terminated by LF
(the LF is consumed and immediately stripped together with any
preceding CRs); at end of file a final unterminated line is returned
only if it is non-empty (getline returns -1 when no bytes remain). -/
def openRowsAux (acc : List Nat) : List Nat → List (List Nat)
  | [] => if acc.length = 0 then [] else [rstripCRLF acc.reverse]
  | b :: bs =>
    if b = 10 then rstripCRLF acc.reverse :: openRowsAux [] bs
    else openRowsAux (b :: acc) bs

/-- The sequence of row chars produced by editorOpen for a file with
the given bytes. -/
def openRows (input : List Nat) : List (List Nat) := openRowsAux [] input

/-- editorRowsToString from kilo.c at the byte level: each row's chars
followed by a single LF, concatenated. -/
def rowsToStringL (ls : List (List Nat)) : List Nat :=
  (ls.map (fun r => r ++ [10])).flatten

/-- editorRowsToString from kilo.c on the row store. -/
def editorRowsToString (rows : List ERow) : List Nat :=
  rowsToStringL (rows.map (·.chars))

/-- The total serialized length computed by editorRowsToString
(the sum over rows of size + 1), reported by editorSave. -/
def rowsTotalLen (rows : List ERow) : Int :=
  rows.foldl (fun acc r => acc + (r.chars.length : Int) + 1) 0

/-- C strrchr(filename, dot): the suffix of the filename starting at
its last period byte (46), if any. -/
def lastDotSuffix : List Nat → Option (List Nat)
  | [] => Option.none
  | c :: cs =>
    match lastDotSuffix cs with
    | Option.some s => Option.some s
    | Option.none =>
      if c = 46 then Option.some (c :: cs) else Option.none

/-- The filematch test of editorSelectSyntaxHighlight: a pattern
starting with a period must equal the filename's last extension,
any other pattern must occur as a substring of the filename. -/
def filenameMatches (pats : List (List Nat)) (fname : List Nat) : Bool :=
  pats.any (fun p =>
    if p.getD 0 0 = 46 then lastDotSuffix fname = Option.some p
    else (strstrOff fname p).isSome)

/-- editorSelectSyntaxHighlight from kilo.c, with the single-entry HLDB
containing the C profile: clear E.syntax; with no filename return;
on a filematch hit install the profile and re-run editorUpdateSyntax
on every row; otherwise leave the rows as they are. -/
def selectHighlight (st : EState) : EState :=
  match st.filename with
  | Option.none => { st with syn := Option.none }
  | Option.some f =>
    if filenameMatches CSyn.filematch f then
      let rows := (List.range st.rows.length).foldl
        (fun rs i => editorUpdateSyntaxAt (Option.some CSyn) rs i) st.rows
      { st with syn := Option.some CSyn, rows := rows }
    else { st with syn := Option.none }

/-- editorOpen from kilo.c: set the filename, select the syntax
profile, append one row per input line via editorInsertRow (each of
which counts an edit), then reset the dirty counter to zero. -/
def editorOpen (st : EState) (fname : List Nat) (input : List Nat) : EState :=
  let st := selectHighlight { st with filename := Option.some fname }
  let st := (openRows input).foldl
    (fun s line => editorInsertRow s s.numrows line) st
  { st with dirty := 0 }

/-- The outcome of the file-system calls made by one editorSave:
whether open(2) succeeds, whether ftruncate succeeds, and the return
value of write(2).  The save succeeds exactly when open and ftruncate
succeed and write returns the full serialized length. -/
structure FsSpec where
  openOk : Bool
  truncOk : Bool
  writeRet : Int
deriving DecidableEq, Repr

/-- The serialize-and-write part of editorSave from kilo.c (after a
filename is available): on full success reset dirty and report the
byte count; on any failure report the error and leave dirty alone. -/
def doSave (st : EState) (fs : FsSpec) : EState :=
  let len := rowsTotalLen st.rows
  if fs.openOk then
    if fs.truncOk then
      if fs.writeRet = len then
        { st with dirty := 0, statusmsg := StatusMsg.saveOk len }
      else { st with statusmsg := StatusMsg.saveErr }
    else { st with statusmsg := StatusMsg.saveErr }
  else { st with statusmsg := StatusMsg.saveErr }

/-- editorSave from kilo.c.  With no filename the save-as prompt runs
on the pending key list (cancel aborts the save with a message; the
accepted buffer becomes the filename and the syntax profile is
re-selected).  Returns none when the prompt consumed all pending keys
without finishing. -/
def editorSave (st : EState) (ks : List Nat) (fs : FsSpec) : Option EState :=
  if st.filename = Option.none then
    match editorPromptLoop PromptKind.saveAs false st initialFindState [] ks with
    | PromptOut.blocked _ _ _ => Option.none
    | PromptOut.canceled st' _ =>
      Option.some { st' with statusmsg := StatusMsg.saveAborted }
    | PromptOut.accepted st' _ buf =>
      Option.some (doSave (selectHighlight { st' with filename := Option.some buf }) fs)
  else Option.some (doSave st fs)

/-- The while (times--) editorMoveCursor loop of the PAGE_UP /
PAGE_DOWN branch (a negative E.screenrows would make the C loop spin
forever; it is modelled as zero iterations). -/
def iterateMove (st : EState) (key : Nat) : Nat → EState
  | 0 => st
  | n + 1 => iterateMove (editorMoveCursor st key) key n

/-- The quit_times = KILO_QUIT_TIMES assignment at the bottom of
editorProcessKeypress, reached by every path except the early return
of the guarded Ctrl-Q. -/
def resetQuit (st : EState) : EState := { st with quit_times := KILO_QUIT_TIMES }

/-- The outcome of one editorProcessKeypress: exited (Ctrl-Q cleared
the screen and called exit(0)); blocked (a prompt inside the handler
exhausted the pending key list); or the next editor state. -/
inductive KeyResult where
  | exited
  | blocked
  | cont (st : EState)
deriving DecidableEq, Repr

/-- editorProcessKeypress from kilo.c, dispatching on the key already
decoded by editorReadKey (so an unrecognised escape sequence arrives
here as the plain ESC code 27).  c is the key; ks is the pending input
consumed by prompts opened by Ctrl-S or Ctrl-F; fs describes the file
system behaviour seen by a save.  Ctrl-codes: Ctrl-Q = 17,
Ctrl-S = 19, Ctrl-F = 6, Ctrl-H = 8, Ctrl-L = 12 (which falls through
to the ESC no-op case in the C switch). -/
def editorProcessKeypress (st : EState) (c : Nat) (ks : List Nat) (fs : FsSpec) :
    KeyResult :=
  if c = 13 then KeyResult.cont (resetQuit (editorInsertNewLine st))
  else if c = 17 then
    if st.dirty ≠ 0 ∧ st.quit_times > 0 then
      KeyResult.cont { st with statusmsg := StatusMsg.quitWarning st.quit_times,
                               quit_times := st.quit_times - 1 }
    else KeyResult.exited
  else if c = 19 then
    match editorSave st ks fs with
    | Option.none => KeyResult.blocked
    | Option.some st' => KeyResult.cont (resetQuit st')
  else if c = 1005 then KeyResult.cont (resetQuit { st with cx := 0 })
  else if c = 1006 then
    KeyResult.cont (resetQuit
      (if st.cy < st.numrows then
        { st with cx := ((rowAt st.rows st.cy.toNat).chars.length : Int) }
      else st))
  else if c = 6 then
    match editorFind st ks with
    | Option.none => KeyResult.blocked
    | Option.some st' => KeyResult.cont (resetQuit st')
  else if c = 127 ∨ c = 8 ∨ c = 1004 then
    let st := if c = 1004 then editorMoveCursor st 1001 else st
    KeyResult.cont (resetQuit (editorDelChar st))
  else if c = 1007 ∨ c = 1008 then
    let st :=
      if c = 1007 then { st with cy := st.rowoff }
      else
        let cy := st.rowoff + st.screenrows - 1
        { st with cy := if cy > st.numrows then st.numrows else cy }
    KeyResult.cont (resetQuit
      (iterateMove st (if c = 1007 then 1002 else 1003) st.screenrows.toNat))
  else if c = 1000 ∨ c = 1001 ∨ c = 1002 ∨ c = 1003 then
    KeyResult.cont (resetQuit (editorMoveCursor st c))
  else if c = 12 then KeyResult.cont (resetQuit st)
  else if c = 27 then KeyResult.cont (resetQuit st)
  else KeyResult.cont (resetQuit (editorInsertChar st c))

/-- A file-system outcome for key sequences that never save (the
Ctrl-Q iteration below); its values are irrelevant there. -/
def dummyFs : FsSpec := ⟨true, true, 0⟩

/-- k consecutive Ctrl-Q presses fed to editorProcessKeypress (with no
pending input; the Ctrl-Q branch consumes none). -/
def ctrlQIter (st : EState) : Nat → KeyResult
  | 0 => KeyResult.cont st
  | k + 1 =>
    match ctrlQIter st k with
    | KeyResult.cont s => editorProcessKeypress s 17 [] dummyFs
    | r => r

/-- The reply-reading loop of getCursorPosition: up to 31 bytes are
stored, stopping before an R byte (82). -/
def readReply (input : List Nat) : List Nat :=
  (input.take 31).takeWhile (fun b => b ≠ 82)

/-- The decimal value of a run of digit bytes, as sscanf %d
accumulates it. -/
def decVal (ds : List Nat) : Int :=
  ds.foldl (fun a b => a * 10 + ((b : Int) - 48)) 0

/-- sscanf %d: skip C whitespace, then an optional sign and at least
one digit; returns the value and the unconsumed rest. -/
def parseDec (l : List Nat) : Option (Int × List Nat) :=
  let l := l.dropWhile (fun b => b = 32 ∨ (9 ≤ b ∧ b ≤ 13))
  let sr : Int × List Nat :=
    if l.getD 0 0 = 45 then (-1, l.drop 1)
    else if l.getD 0 0 = 43 then (1, l.drop 1)
    else (1, l)
  let ds := sr.2.takeWhile (fun b => 48 ≤ b ∧ b ≤ 57)
  if ds.length = 0 then Option.none
  else Option.some (sr.1 * decVal ds, sr.2.drop ds.length)

/-- sscanf(buf, "%d;%d", rows, cols): both conversions must succeed,
with a literal semicolon (59) between them. -/
def parseRowsCols (l : List Nat) : Option (Int × Int) :=
  match parseDec l with
  | Option.none => Option.none
  | Option.some r =>
    match r.2 with
    | 59 :: rest2 => (parseDec rest2).map (fun p => (r.1, p.1))
    | _ => Option.none

/-- getCursorPosition from kilo.c, reading the terminal's reply to the
ESC [ 6 n query from the given input bytes.  The first component is
the function's return value; the second holds the values stored
through the rows/cols out-parameters (none when sscanf did not store
both).  Note that the C function ends in return -1 even when the
reply parsed successfully. -/
def getCursorPosition (input : List Nat) : Int × Option (Int × Int) :=
  let buf := readReply input
  if buf.getD 0 0 ≠ 27 ∨ buf.getD 1 0 ≠ 91 then (-1, Option.none)
  else
    match parseRowsCols (buf.drop 2) with
    | Option.some rc => (-1, Option.some rc)
    | Option.none => (-1, Option.none)

/-- getWindowSize from kilo.c.  ioctlRes is the TIOCGWINSZ result
(none on failure, otherwise the rows/cols pair, subject to the
ws_col == 0 re-check); writeOk tells whether the 12-byte
cursor-to-bottom-right write succeeded; input is the terminal's reply
to the fallback ESC [ 6 n query. -/
def getWindowSize (ioctlRes : Option (Int × Int)) (writeOk : Bool)
    (input : List Nat) : Int × Option (Int × Int) :=
  match ioctlRes with
  | Option.some rc =>
    if rc.2 = 0 then
      if writeOk then getCursorPosition input else (-1, Option.none)
    else (0, Option.some rc)
  | Option.none =>
    if writeOk then getCursorPosition input else (-1, Option.none)

/-- The byte sequence that claim C1 predicts for saving a freshly
loaded file, transcribed from the claim's words: the input bytes with
every CR (13) removed and a trailing LF (10) appended after the last
line (no byte is appended when the input already ends in LF; an empty
input has no lines and gives an empty output). -/
def specC1 (input : List Nat) : List Nat :=
  if input.length = 0 then []
  else
    (input.filter (fun b => b ≠ 13)) ++
      (if input.getLast? = Option.some 10 then [] else [10])

/-- Every CR byte (13) in the list is immediately followed by another
CR or by an LF (10), or ends the list: every CR lies in a run of CRs
that reaches an LF or the end of the input, which is exactly the
trailing CR/LF run that editorOpen's strip loop removes from its line.
A CR immediately followed by any other byte is kept in the row (the
counterexample), and this predicate is false. -/
def crOnlyInTerminators : List Nat → Bool
  | [] => true
  | [_] => true
  | b :: b2 :: rest =>
    (decide (b ≠ 13) || decide (b2 = 10) || decide (b2 = 13)) &&
      crOnlyInTerminators (b2 :: rest)

/-- The coherence invariant of the highlighter (claim C4): the row at
position i carries exactly the hl array and hl_open_comment flag that
editorUpdateSyntax computes for its render, starting from the
hl_open_comment of the row above it (false for the first row). -/
def coherentAt (s : SynDef) (rows : List ERow) (i : Nat) : Prop :=
  (rowAt rows i).hl = (rowHl s (prevOpen rows i) (rowAt rows i).render).1 ∧
    (rowAt rows i).hl_open_comment =
      (rowHl s (prevOpen rows i) (rowAt rows i).render).2

/-- No row's hl array contains the HL_MATCH class (claim C9). -/
def NoMatchRows (rows : List ERow) : Prop :=
  ∀ r ∈ rows, HL.matched ∉ r.hl

/-- A buffer row as built by editorInsertRow with no active syntax
profile: render is the tab expansion of chars and hl is all
HL_NORMAL. -/
def plainRow (cs : List Nat) : ERow :=
  ⟨cs, renderChars cs, List.replicate (renderChars cs).length HL.normal, false⟩

/-- The scenario buffer of claim C3: rows foo, bar, foo with no
filename (hence no syntax profile), cursor at (cx 0, cy 2), on an
80 by 24 screen. -/
def c3init : EState :=
  { cx := 0, cy := 2, rx := 0, rowoff := 0, coloff := 0, screenrows := 24,
    screencols := 80,
    rows := [plainRow [102, 111, 111], plainRow [98, 97, 114],
             plainRow [102, 111, 111]],
    filename := Option.none, dirty := 0, statusmsg := StatusMsg.help,
    syn := Option.none, quit_times := KILO_QUIT_TIMES }

/-- The editor state while the find prompt of claim C3 is still open,
after the given keys have been processed. -/
def c3during (ks : List Nat) : EState :=
  match editorPromptLoop PromptKind.search true c3init initialFindState [] ks with
  | PromptOut.blocked s _ _ => s
  | PromptOut.canceled s _ => s
  | PromptOut.accepted s _ _ => s

/-- Typing f, o, o then the Right arrow (claim C3's key presses before
ESC). -/
def c3keys4 : List Nat := [102, 111, 111, 1001]

/-- The dirty example state used to instantiate the quit-guard claims:
one unsaved edit, fresh quit guard, empty one-row-less buffer. -/
def exDirty : EState :=
  { cx := 0, cy := 0, rx := 0, rowoff := 0, coloff := 0, screenrows := 24,
    screencols := 80, rows := [plainRow [104, 105]],
    filename := Option.some [116, 46, 116, 120, 116], dirty := 1,
    statusmsg := StatusMsg.none, syn := Option.none,
    quit_times := KILO_QUIT_TIMES }

/-- The stale-highlight example rows for claim C4's witness: row 0 has
just had a block-comment opener typed into it (render updated, hl and
hl_open_comment still stale), rows 1 and 2 still carry the
highlighting computed when every hl_open_comment was false. -/
def c4rows : List ERow :=
  [⟨[97, 32, 47, 42, 32, 98], [97, 32, 47, 42, 32, 98],
    List.replicate 6 HL.normal, false⟩,
   ⟨[99, 32, 100], [99, 32, 100],
    (rowHl CSyn false [99, 32, 100]).1, (rowHl CSyn false [99, 32, 100]).2⟩,
   ⟨[101, 32, 42, 47, 32, 102], [101, 32, 42, 47, 32, 102],
    (rowHl CSyn false [101, 32, 42, 47, 32, 102]).1,
    (rowHl CSyn false [101, 32, 42, 47, 32, 102]).2⟩]

/-- A well-formed cursor-position reply: ESC [ 2 4 ; 8 0 R. -/
def c2reply : List Nat := [27, 91, 50, 52, 59, 56, 48, 82]

instance (s : SynDef) (rows : List ERow) (i : Nat) :
    Decidable (coherentAt s rows i) := by
  unfold coherentAt; infer_instance

instance (rows : List ERow) : Decidable (NoMatchRows rows) := by
  unfold NoMatchRows; infer_instance

/-- Claim C6: rendering the row a TAB b c under tab stop 8 yields one
a, seven spaces, b, c (length 10), and editorRowCxToRx maps cx 1 to
rx 1 and cx 2 to rx 8. -/
theorem c6_tab_render :
    renderChars [97, 9, 98, 99] = [97] ++ List.replicate 7 32 ++ [98, 99] ∧
    (renderChars [97, 9, 98, 99]).length = 10 ∧
    editorRowCxToRx [97, 9, 98, 99] 1 = 1 ∧
    editorRowCxToRx [97, 9, 98, 99] 2 = 8 := by decide

/-- Claim C3, counterexample: in the buffer foo, bar, foo with the
cursor at (0,2), typing foo and pressing the Right arrow does not move
the cursor to (0,0) with row 0's span highlighted as claimed: the
search walks forward from the first hit (row 0) and lands on row 2. -/
theorem c3_counterexample :
    ¬((c3during c3keys4).cx = 0 ∧ (c3during c3keys4).cy = 0 ∧
      (rowAt (c3during c3keys4).rows 0).hl =
        [HL.matched, HL.matched, HL.matched]) := by decide

/-- Claim C3 as amended: in the buffer foo, bar, foo with the cursor at
(0,2) on entry, typing foo finds the first match at row 0; pressing
the Right arrow then moves the cursor to (0,2) — the next match
forward, row 2, whose span is highlighted Match while row 0's original
highlighting is restored; a second Right arrow wraps past the end to
(0,0) with row 0's span highlighted Match; pressing ESC afterwards
restores the cursor to (0,2) and restores the matched row's original
highlighting, leaving the buffer rows exactly as on entry. -/
theorem c3_find_scenario :
    (c3during c3keys4).cx = 0 ∧ (c3during c3keys4).cy = 2 ∧
    (rowAt (c3during c3keys4).rows 2).hl =
      [HL.matched, HL.matched, HL.matched] ∧
    (rowAt (c3during c3keys4).rows 0).hl = List.replicate 3 HL.normal ∧
    (c3during (c3keys4 ++ [1001])).cx = 0 ∧
    (c3during (c3keys4 ++ [1001])).cy = 0 ∧
    (rowAt (c3during (c3keys4 ++ [1001])).rows 0).hl =
      [HL.matched, HL.matched, HL.matched] ∧
    (editorFind c3init (c3keys4 ++ [1001, 27])).isSome = true ∧
    ((editorFind c3init (c3keys4 ++ [1001, 27])).getD default).cx = 0 ∧
    ((editorFind c3init (c3keys4 ++ [1001, 27])).getD default).cy = 2 ∧
    ((editorFind c3init (c3keys4 ++ [1001, 27])).getD default).rows =
      c3init.rows := by decide

/-- Claim C1, counterexample: the file bytes a CR b contain a CR that
is not part of a line terminator; editorOpen keeps it in the row (the
getline loop only strips trailing CR and LF), so saving yields
a CR b LF, not the claimed a b LF with every CR stripped. -/
theorem c1_counterexample :
    editorRowsToString (editorOpen default [116] [97, 13, 98]).rows ≠
      specC1 [97, 13, 98] := by decide

theorem cxToRxGo_ge (n : Nat) : ∀ (cs : List Nat) (rx : Nat),
    rx ≤ cxToRxGo rx cs n := by
  induction n with
  | zero => intro cs rx; cases cs <;> simp [cxToRxGo]
  | succ n ih =>
    intro cs rx
    cases cs with
    | nil =>
      calc rx ≤ rx + 1 := Nat.le_succ rx
        _ ≤ cxToRxGo (rx + 1) [] n := ih [] (rx + 1)
        _ = cxToRxGo rx [] (n + 1) := by simp [cxToRxGo]
    | cons c cs =>
      by_cases hc : c = 9
      · calc rx ≤ rx + ((KILO_TAB_STOP - 1) - rx % KILO_TAB_STOP) + 1 := by omega
          _ ≤ cxToRxGo (rx + ((KILO_TAB_STOP - 1) - rx % KILO_TAB_STOP) + 1) cs n :=
            ih cs _
          _ = cxToRxGo rx (c :: cs) (n + 1) := by simp [cxToRxGo, hc]
      · calc rx ≤ rx + 1 := Nat.le_succ rx
          _ ≤ cxToRxGo (rx + 1) cs n := ih cs (rx + 1)
          _ = cxToRxGo rx (c :: cs) (n + 1) := by simp [cxToRxGo, hc]

theorem rxToCx_cxToRx_aux (n : Nat) : ∀ (cs : List Nat) (r c : Nat),
    n ≤ cs.length → rxToCxGo r c (cxToRxGo r cs n) cs = c + n := by
  induction n with
  | zero =>
    intro cs r c _
    cases cs with
    | nil => simp [cxToRxGo, rxToCxGo]
    | cons x cs =>
      have h9 : ∀ rx : Nat, rx < rx + ((KILO_TAB_STOP - 1) - rx % KILO_TAB_STOP) + 1 := by
        intro rx; omega
      by_cases hx : x = 9 <;>
        simp [cxToRxGo, rxToCxGo, hx, h9 r]
  | succ n ih =>
    intro cs r c hn
    cases cs with
    | nil => simp at hn
    | cons x cs =>
      have hn' : n ≤ cs.length := by simpa using hn
      by_cases hx : x = 9
      · have hge := cxToRxGo_ge n cs (r + ((KILO_TAB_STOP - 1) - r % KILO_TAB_STOP) + 1)
        have := ih cs (r + ((KILO_TAB_STOP - 1) - r % KILO_TAB_STOP) + 1) (c + 1) hn'
        simp [cxToRxGo, rxToCxGo, hx, Nat.not_lt.mpr hge] at this ⊢
        omega
      · have hge := cxToRxGo_ge n cs (r + 1)
        have := ih cs (r + 1) (c + 1) hn'
        simp [cxToRxGo, rxToCxGo, hx, Nat.not_lt.mpr hge] at this ⊢
        omega

theorem cxToRx_rxToCx_aux : ∀ (cs : List Nat) (r c rx : Nat), r ≤ rx →
    ∃ k, rxToCxGo r c rx cs = c + k ∧ cxToRxGo r cs k ≤ rx := by
  intro cs
  induction cs with
  | nil =>
    intro r c rx hr
    exact ⟨0, by simp [rxToCxGo], by simpa [cxToRxGo] using hr⟩
  | cons x cs ih =>
    intro r c rx hr
    by_cases hx : x = 9
    · set r2 := r + ((KILO_TAB_STOP - 1) - r % KILO_TAB_STOP) + 1 with hr2
      by_cases hgt : r2 > rx
      · exact ⟨0, by simp [rxToCxGo, hx, ← hr2, hgt], by simpa [cxToRxGo] using hr⟩
      · obtain ⟨k, hk, hle⟩ := ih r2 (c + 1) rx (Nat.not_lt.mp hgt)
        refine ⟨k + 1, ?_, ?_⟩
        · simp [rxToCxGo, hx, ← hr2, hgt]
          omega
        · simpa [cxToRxGo, hx, ← hr2] using hle
    · by_cases hgt : r + 1 > rx
      · exact ⟨0, by simp [rxToCxGo, hx, hgt], by simpa [cxToRxGo] using hr⟩
      · obtain ⟨k, hk, hle⟩ := ih (r + 1) (c + 1) rx (Nat.not_lt.mp hgt)
        refine ⟨k + 1, ?_, ?_⟩
        · simp [rxToCxGo, hx, hgt]
          omega
        · simpa [cxToRxGo, hx] using hle

/-- Claim C5: for every row and every cx at most the row length,
editorRowRxToCx inverts editorRowCxToRx exactly; and for every rx,
mapping to a chars index and back never overshoots rx. -/
theorem c5_cx_rx_roundtrip (chars : List Nat) (cx rx : Nat)
    (h : cx ≤ chars.length) :
    editorRowRxToCx chars (editorRowCxToRx chars cx) = cx ∧
    editorRowCxToRx chars (editorRowRxToCx chars rx) ≤ rx := by
  constructor
  · simpa using rxToCx_cxToRx_aux cx chars 0 0 h
  · obtain ⟨k, hk, hle⟩ := cxToRx_rxToCx_aux chars 0 0 rx (Nat.zero_le rx)
    unfold editorRowRxToCx editorRowCxToRx
    rw [hk]
    simpa using hle

/-- Witness for claim C5 at the row a TAB b c, cx 2 (at most the row
length 4) and rx 5. -/
theorem c5_witness :
    editorRowRxToCx [97, 9, 98, 99] (editorRowCxToRx [97, 9, 98, 99] 2) = 2 ∧
    editorRowCxToRx [97, 9, 98, 99] (editorRowRxToCx [97, 9, 98, 99] 5) ≤ 5 :=
  c5_cx_rx_roundtrip [97, 9, 98, 99] 2 5 (by decide)

theorem takeWhile_append_of_all {p : Nat → Bool} :
    ∀ (xs : List Nat) (y : Nat) (ys : List Nat), (∀ x ∈ xs, p x = true) →
      p y = false → (xs ++ y :: ys).takeWhile p = xs := by
  intro xs y ys hall hy
  induction xs with
  | nil => simp [List.takeWhile, hy]
  | cons x xs ih =>
    have hx : p x = true := hall x (by simp)
    simp only [List.cons_append, List.takeWhile_cons, hx, if_true]
    rw [ih (fun a ha => hall a (by simp [ha]))]

theorem takeWhile_eq_self_of_all {p : Nat → Bool} :
    ∀ (xs : List Nat), (∀ x ∈ xs, p x = true) → xs.takeWhile p = xs := by
  intro xs hall
  induction xs with
  | nil => simp
  | cons x xs ih =>
    simp only [List.takeWhile_cons, hall x (by simp), if_true]
    rw [ih (fun a ha => hall a (by simp [ha]))]

theorem parseDec_digits_cons (d : List Nat) (y : Nat) (rest : List Nat)
    (hd : d ≠ []) (hdig : ∀ b ∈ d, 48 ≤ b ∧ b ≤ 57)
    (hy1 : ¬(48 ≤ y ∧ y ≤ 57)) :
    parseDec (d ++ y :: rest) = Option.some (decVal d, y :: rest) := by
  obtain ⟨b, d', rfl⟩ := List.exists_cons_of_ne_nil hd
  have hb := hdig b (by simp)
  have hnws : ((b = 32 ∨ (9 ≤ b ∧ b ≤ 13)) : Bool) = false := by
    simp; omega
  have hds : ((b :: d') ++ y :: rest).takeWhile
      (fun b => ((48 ≤ b ∧ b ≤ 57) : Bool)) = b :: d' := by
    apply takeWhile_append_of_all
    · intro x hx; simpa using hdig x hx
    · simpa using hy1
  have hb45 : ¬(b = 45) := by omega
  have hb43 : ¬(b = 43) := by omega
  simp only [parseDec, List.cons_append, List.dropWhile_cons, hnws,
    Bool.false_eq_true, if_false]
  simp only [List.getD_cons_zero, if_neg hb45, if_neg hb43]
  simp only [← List.cons_append, hds]
  simp [List.drop_left', one_mul]

theorem parseDec_digits_nil (d : List Nat)
    (hd : d ≠ []) (hdig : ∀ b ∈ d, 48 ≤ b ∧ b ≤ 57) :
    parseDec d = Option.some (decVal d, []) := by
  obtain ⟨b, d', rfl⟩ := List.exists_cons_of_ne_nil hd
  have hb := hdig b (by simp)
  have hnws : ((b = 32 ∨ (9 ≤ b ∧ b ≤ 13)) : Bool) = false := by
    simp; omega
  have hds : (b :: d').takeWhile (fun b => ((48 ≤ b ∧ b ≤ 57) : Bool)) =
      b :: d' := by
    apply takeWhile_eq_self_of_all
    intro x hx; simpa using hdig x hx
  have hb45 : ¬(b = 45) := by omega
  have hb43 : ¬(b = 43) := by omega
  simp only [parseDec, List.dropWhile_cons, hnws, Bool.false_eq_true, if_false]
  simp only [List.getD_cons_zero, if_neg hb45, if_neg hb43]
  simp only [hds]
  simp [one_mul]

/-- Claim C2 (the code contradicts it): when the ioctl fails and the
fallback cursor-position query receives any well-formed
ESC [ rows ; cols R reply (digit runs d1 and d2, total reply within
the 32-byte buffer), getCursorPosition does parse and store the rows
and columns — but its final statement is return -1, so getWindowSize
reports failure and initEditor's getWindowSize == -1 check makes
startup die instead of succeeding as the claim states. -/
theorem c2_fallback_reports_failure (d1 d2 : List Nat)
    (h1 : d1 ≠ []) (h1d : ∀ b ∈ d1, 48 ≤ b ∧ b ≤ 57)
    (h2 : d2 ≠ []) (h2d : ∀ b ∈ d2, 48 ≤ b ∧ b ≤ 57)
    (hlen : d1.length + d2.length + 4 ≤ 31) :
    getWindowSize Option.none true ([27, 91] ++ d1 ++ [59] ++ d2 ++ [82]) =
      (-1, Option.some (decVal d1, decVal d2)) := by
  have hbuf : readReply ([27, 91] ++ d1 ++ [59] ++ d2 ++ [82]) =
      [27, 91] ++ d1 ++ [59] ++ d2 := by
    unfold readReply
    rw [List.take_of_length_le (by simp; omega)]
    have : ([27, 91] ++ d1 ++ [59] ++ d2 ++ [82] : List Nat) =
        ([27, 91] ++ d1 ++ [59] ++ d2) ++ 82 :: [] := by simp
    rw [this, takeWhile_append_of_all]
    · intro x hx
      have hx' : x = 27 ∨ x = 91 ∨ x ∈ d1 ∨ x = 59 ∨ x ∈ d2 := by
        have e2 : ([27, 91] ++ d1 ++ [59] ++ d2 : List Nat) =
            27 :: 91 :: (d1 ++ 59 :: d2) := by simp
        rw [e2] at hx
        simp only [List.mem_cons, List.mem_append] at hx
        tauto
      rcases hx' with rfl | rfl | h | rfl | h
      · decide
      · decide
      · have := h1d x h; simp; omega
      · decide
      · have := h2d x h; simp; omega
    · simp
  have hdrop : ([27, 91] ++ d1 ++ [59] ++ d2 : List Nat).drop 2 =
      d1 ++ 59 :: d2 := by simp
  have hp1 : parseDec (d1 ++ 59 :: d2) = Option.some (decVal d1, 59 :: d2) :=
    parseDec_digits_cons d1 59 d2 h1 h1d (by omega)
  have hp2 : parseDec d2 = Option.some (decVal d2, []) :=
    parseDec_digits_nil d2 h2 h2d
  have hget0 : ([27, 91] ++ d1 ++ [59] ++ d2 : List Nat).getD 0 0 = 27 := by
    simp
  have hget1 : ([27, 91] ++ d1 ++ [59] ++ d2 : List Nat).getD 1 0 = 91 := by
    simp
  unfold getWindowSize getCursorPosition
  rw [hbuf]
  simp only [hget0, hget1, hdrop]
  unfold parseRowsCols
  rw [hp1]
  simp [hp2]

/-- Witness for claim C2 at the concrete reply ESC [ 2 4 ; 8 0 R. -/
theorem c2_witness :
    getWindowSize Option.none true c2reply = (-1, Option.some (24, 80)) := by
  have h := c2_fallback_reports_failure [50, 52] [56, 48]
    (by decide) (by decide) (by decide) (by decide) (by decide)
  have e : c2reply = [27, 91] ++ [50, 52] ++ [59] ++ [56, 48] ++ [82] := by
    decide
  rw [e, h]
  decide

theorem ctrlQ_step_warn (s : EState) (hd : s.dirty ≠ 0) (hq : s.quit_times > 0) :
    editorProcessKeypress s 17 [] dummyFs =
      KeyResult.cont { s with statusmsg := StatusMsg.quitWarning s.quit_times,
                              quit_times := s.quit_times - 1 } := by
  unfold editorProcessKeypress
  rw [if_neg (by decide), if_pos rfl, if_pos ⟨hd, hq⟩]

theorem ctrlQ_step_exit (s : EState) (h : ¬(s.dirty ≠ 0 ∧ s.quit_times > 0)) :
    editorProcessKeypress s 17 [] dummyFs = KeyResult.exited := by
  unfold editorProcessKeypress
  rw [if_neg (by decide), if_pos rfl, if_neg h]

theorem ctrlQIter_succ (st : EState) (k : Nat) :
    ctrlQIter st (k + 1) =
      match ctrlQIter st k with
      | KeyResult.cont s => editorProcessKeypress s 17 [] dummyFs
      | r => r := rfl

/-- Claim C7: from a dirty buffer with a fresh quit guard of 3,
k consecutive Ctrl-Q presses exit the editor (the exit path clears the
screen and calls exit(0), modelled as the exited outcome) iff k > 3;
and each of the first three presses only decrements the guard and sets
the warning message, leaving the state otherwise unchanged. -/
theorem c7_quit_guard (st : EState) (k : Nat)
    (hd : st.dirty ≠ 0) (hq : st.quit_times = 3) :
    ((ctrlQIter st k = KeyResult.exited) ↔ 3 < k) ∧
    (1 ≤ k → k ≤ 3 → ctrlQIter st k = KeyResult.cont
      { st with statusmsg := StatusMsg.quitWarning (4 - (k : Int)),
                quit_times := 3 - (k : Int) }) := by
  have e1 : ctrlQIter st 1 = KeyResult.cont
      { st with statusmsg := StatusMsg.quitWarning 3, quit_times := 2 } := by
    have h := ctrlQ_step_warn st hd (by omega)
    rw [hq] at h
    norm_num at h
    simpa [ctrlQIter] using h
  have e2 : ctrlQIter st 2 = KeyResult.cont
      { st with statusmsg := StatusMsg.quitWarning 2, quit_times := 1 } := by
    have h := ctrlQ_step_warn
      { st with statusmsg := StatusMsg.quitWarning 3, quit_times := 2 }
      (by simpa using hd) (by norm_num)
    norm_num at h
    rw [show (2 : Nat) = 1 + 1 from rfl, ctrlQIter_succ, e1]
    exact h
  have e3 : ctrlQIter st 3 = KeyResult.cont
      { st with statusmsg := StatusMsg.quitWarning 1, quit_times := 0 } := by
    have h := ctrlQ_step_warn
      { st with statusmsg := StatusMsg.quitWarning 2, quit_times := 1 }
      (by simpa using hd) (by norm_num)
    norm_num at h
    rw [show (3 : Nat) = 2 + 1 from rfl, ctrlQIter_succ, e2]
    exact h
  have e4 : ctrlQIter st 4 = KeyResult.exited := by
    rw [show (4 : Nat) = 3 + 1 from rfl, ctrlQIter_succ, e3]
    exact ctrlQ_step_exit _ (by norm_num)
  have habs : ∀ m, ctrlQIter st (4 + m) = KeyResult.exited := by
    intro m
    induction m with
    | zero => exact e4
    | succ m ih => rw [Nat.add_succ, ctrlQIter_succ, ih]
  constructor
  · constructor
    · intro hex
      by_contra hgt
      push_neg at hgt
      interval_cases k
      · simp [ctrlQIter] at hex
      · rw [e1] at hex; exact absurd hex (by simp)
      · rw [e2] at hex; exact absurd hex (by simp)
      · rw [e3] at hex; exact absurd hex (by simp)
    · intro hk
      obtain ⟨m, rfl⟩ : ∃ m, k = 4 + m := ⟨k - 4, by omega⟩
      exact habs m
  · intro h1k h3k
    interval_cases k
    · rw [e1]; norm_num
    · rw [e2]; norm_num
    · rw [e3]; norm_num

/-- Witness for claim C7: in a concrete dirty one-row buffer with a
fresh guard, the fourth consecutive Ctrl-Q press exits. -/
theorem c7_witness : ctrlQIter exDirty 4 = KeyResult.exited :=
  (c7_quit_guard exDirty 4 (by decide) (by decide)).1.mpr (by decide)

/-- Claim C8: with a filename set, a save whose open, truncate and
full-length write all succeed resets the dirty counter to 0 and
reports the serialized byte count in the status bar; if any of the
three fails, the dirty counter is unchanged, the error is reported as
a status-bar message, and editorSave returns to the caller (the editor
does not exit: the Ctrl-S dispatch continues with the next state). -/
theorem c8_save_dirty (st : EState) (f : List Nat) (fs : FsSpec) (ks : List Nat)
    (hf : st.filename = Option.some f) :
    (fs.openOk = true → fs.truncOk = true →
      fs.writeRet = rowsTotalLen st.rows →
      editorSave st ks fs = Option.some
        { st with dirty := 0,
                  statusmsg := StatusMsg.saveOk (rowsTotalLen st.rows) }) ∧
    (¬(fs.openOk = true ∧ fs.truncOk = true ∧
        fs.writeRet = rowsTotalLen st.rows) →
      editorSave st ks fs = Option.some
        { st with statusmsg := StatusMsg.saveErr } ∧
      ({ st with statusmsg := StatusMsg.saveErr } : EState).dirty = st.dirty) ∧
    (∀ st', editorSave st ks fs = Option.some st' →
      editorProcessKeypress st 19 ks fs = KeyResult.cont (resetQuit st')) := by
  have hne : ¬(st.filename = Option.none) := by simp [hf]
  refine ⟨?_, ?_, ?_⟩
  · intro h1 h2 h3
    simp [editorSave, hne, doSave, h1, h2, h3]
  · intro h
    refine ⟨?_, rfl⟩
    by_cases h1 : fs.openOk = true
    · by_cases h2 : fs.truncOk = true
      · by_cases h3 : fs.writeRet = rowsTotalLen st.rows
        · exact absurd ⟨h1, h2, h3⟩ h
        · simp [editorSave, hne, doSave, h1, h2, h3]
      · simp [editorSave, hne, doSave, h1, h2]
    · simp [editorSave, hne, doSave, h1]
  · intro st' hs
    unfold editorProcessKeypress
    rw [if_neg (by decide), if_neg (by decide), if_pos rfl, hs]

/-- Witness for claim C8 at a concrete one-row dirty buffer with a
filename: a fully successful save (write returns the serialized length
3) resets dirty and reports 3 bytes. -/
theorem c8_witness :
    editorSave exDirty [] ⟨true, true, 3⟩ = Option.some
      { exDirty with dirty := 0, statusmsg := StatusMsg.saveOk 3 } := by
  have h := (c8_save_dirty exDirty [116, 46, 116, 120, 116]
    ⟨true, true, 3⟩ [] (by decide)).1 rfl rfl (by decide)
  rw [h]
  decide

theorem cont_of_match_opt (o : Option EState) (st' : EState)
    (h : (match o with
          | Option.none => KeyResult.blocked
          | Option.some s => KeyResult.cont (resetQuit s)) =
        KeyResult.cont st') :
    st'.quit_times = KILO_QUIT_TIMES := by
  cases o with
  | none => simp at h
  | some s => cases h; rfl

set_option maxHeartbeats 1000000 in
/-- Claim C10: whenever editorProcessKeypress finishes handling a key
with a next state (so not the exit path), and the key was not a Ctrl-Q
pressed on a dirty buffer with a positive quit guard (the early-return
branch that decrements the guard), the resulting quit guard equals its
initial value KILO_QUIT_TIMES = 3.  This includes the ignored keys
Ctrl-L (12) and ESC (27, which is also how unrecognised escape
sequences arrive from editorReadKey). -/
theorem c10_quit_guard_reset (st : EState) (c : Nat) (ks : List Nat)
    (fs : FsSpec) (st' : EState)
    (h : editorProcessKeypress st c ks fs = KeyResult.cont st')
    (hng : ¬(c = 17 ∧ st.dirty ≠ 0 ∧ st.quit_times > 0)) :
    st'.quit_times = KILO_QUIT_TIMES := by
  by_cases hc : c = 17
  · subst hc
    unfold editorProcessKeypress at h
    rw [if_neg (by decide), if_pos rfl,
      if_neg (fun hg => hng ⟨rfl, hg⟩)] at h
    exact absurd h (by simp)
  · unfold editorProcessKeypress at h
    split_ifs at h <;>
      first
      | (exact absurd ‹c = 17› hc)
      | (cases h; rfl)
      | (exact cont_of_match_opt _ _ h)

/-- Witness for claim C10: handling ESC (an ignored key) on a dirty
buffer leaves the quit guard at 3. -/
theorem c10_witness : (resetQuit exDirty).quit_times = KILO_QUIT_TIMES :=
  c10_quit_guard_reset exDirty 27 [] dummyFs (resetQuit exDirty)
    (by decide) (by decide)

theorem getD_set_self {α : Type _} [Inhabited α] (l : List α) (i : Nat) (v : α)
    (h : i < l.length) : (l.set i v).getD i default = v := by
  rw [List.getD_eq_getElem?_getD, List.getElem?_set_self h]
  rfl

theorem getD_set_ne {α : Type _} [Inhabited α] (l : List α) (i j : Nat) (v : α)
    (h : i ≠ j) : (l.set i v).getD j default = l.getD j default := by
  rw [List.getD_eq_getElem?_getD, List.getElem?_set_ne h,
    ← List.getD_eq_getElem?_getD]

theorem rowAt_set_self (rows : List ERow) (i : Nat) (v : ERow)
    (h : i < rows.length) : rowAt (rows.set i v) i = v :=
  getD_set_self rows i v h

theorem rowAt_set_ne (rows : List ERow) (i j : Nat) (v : ERow)
    (h : i ≠ j) : rowAt (rows.set i v) j = rowAt rows j :=
  getD_set_ne rows i j v h

theorem prevOpen_set_ne (rows : List ERow) (i j : Nat) (v : ERow)
    (h : j = 0 ∨ j - 1 ≠ i) : prevOpen (rows.set i v) j = prevOpen rows j := by
  unfold prevOpen
  rcases h with h | h
  · simp [h]
  · by_cases hj : j = 0
    · simp [hj]
    · simp only [hj, if_false, if_neg hj]
      rw [rowAt_set_ne rows i (j - 1) v (fun he => h he.symm)]

theorem updateGo_coherent (s : SynDef) :
    ∀ (fuel : Nat) (rows : List ERow) (k : Nat),
      fuel = rows.length - k → k < rows.length →
      (∀ i, i < rows.length → i ≠ k → coherentAt s rows i) →
      ∀ i, i < rows.length → coherentAt s (updateSyntaxGo s fuel rows k) i := by
  intro fuel
  induction fuel with
  | zero => intro rows k hf hk _ i _; omega
  | succ fuel ih =>
    intro rows k hf hk hcoh i hi
    have hlen : (rows.set k
        { rowAt rows k with
          hl := (rowHl s (prevOpen rows k) (rowAt rows k).render).1,
          hl_open_comment :=
            (rowHl s (prevOpen rows k) (rowAt rows k).render).2 }).length =
        rows.length := List.length_set rows k _
    set row := rowAt rows k with hrow
    set p := rowHl s (prevOpen rows k) row.render with hp
    set rows' := rows.set k { row with hl := p.1, hl_open_comment := p.2 }
      with hrows'
    have hatk : rowAt rows' k = { row with hl := p.1, hl_open_comment := p.2 } :=
      rowAt_set_self rows k _ hk
    have hprevk : prevOpen rows' k = prevOpen rows k := by
      apply prevOpen_set_ne
      by_cases h0 : k = 0
      · exact Or.inl h0
      · exact Or.inr (by omega)
    have hcohk : coherentAt s rows' k := by
      unfold coherentAt
      rw [hatk, hprevk]
      exact ⟨rfl, rfl⟩
    have hother : ∀ j, j < rows.length → j ≠ k → j ≠ k + 1 →
        coherentAt s rows' j := by
      intro j hj hjk hjk1
      have hat : rowAt rows' j = rowAt rows j :=
        rowAt_set_ne rows k j _ (fun he => hjk he.symm)
      have hprev : prevOpen rows' j = prevOpen rows j := by
        apply prevOpen_set_ne
        by_cases h0 : j = 0
        · exact Or.inl h0
        · exact Or.inr (by omega)
      unfold coherentAt
      rw [hat, hprev]
      exact hcoh j hj hjk
    have hunf : updateSyntaxGo s (fuel + 1) rows k =
        if ¬row.hl_open_comment = p.2 ∧ k + 1 < rows.length then
          updateSyntaxGo s fuel rows' (k + 1)
        else rows' := by
      rw [updateSyntaxGo]
    rw [hunf]
    by_cases hch : ¬row.hl_open_comment = p.2 ∧ k + 1 < rows.length
    · rw [if_pos hch]
      have hlen' : rows'.length = rows.length := hlen
      apply ih rows' (k + 1)
      · omega
      · omega
      · intro j hj hjk1
        rw [hlen'] at hj
        by_cases hjk : j = k
        · rw [hjk]; exact hcohk
        · exact hother j hj hjk hjk1
      · omega
    · rw [if_neg hch]
      by_cases hik : i = k
      · rw [hik]; exact hcohk
      · by_cases hik1 : i = k + 1
        · by_cases hlt : k + 1 < rows.length
          · have hnc : row.hl_open_comment = p.2 := by tauto
            have hat : rowAt rows' (k + 1) = rowAt rows (k + 1) :=
              rowAt_set_ne rows k (k + 1) _ (by omega)
            have hprev : prevOpen rows' (k + 1) = prevOpen rows (k + 1) := by
              unfold prevOpen
              simp only [Nat.succ_ne_zero, if_false, Nat.add_sub_cancel]
              rw [hatk, ← hnc]
            unfold coherentAt
            rw [hik1, hat, hprev]
            exact hcoh (k + 1) hlt (by omega)
          · omega
        · exact hother i hi hik hik1

theorem not_mem_set {α : Type _} (l : List α) (i : Nat) (v a : α)
    (ha : a ∉ l) (hv : a ≠ v) : a ∉ l.set i v := fun h =>
  (List.mem_or_eq_of_mem_set h).elim ha hv

theorem not_mem_setRange (hl : List HL) (i len : Nat) (v a : HL)
    (ha : a ∉ hl) (hv : a ≠ v) : a ∉ setRange hl i len v := by
  unfold setRange
  intro h
  simp only [List.mem_append] at h
  rcases h with (h | h) | h
  · exact ha (List.take_subset i hl h)
  · exact hv (List.mem_replicate.mp h).2
  · exact ha (List.drop_subset (i + len) hl h)

set_option maxHeartbeats 2000000 in
theorem synLoop_no_matched (s : SynDef) (render : List Nat) :
    ∀ (fuel i : Nat) (hl : List HL) (ps : Bool) (instr : Nat) (inc : Bool),
      HL.matched ∉ hl → HL.matched ∉ (synLoop s render fuel i hl ps instr inc).1 := by
  intro fuel
  induction fuel with
  | zero => intro i hl ps instr inc h; simpa [synLoop] using h
  | succ fuel ih =>
    intro i hl ps instr inc h
    simp only [synLoop]
    split_ifs <;> (try split) <;>
      first
      | exact h
      | exact ih _ _ _ _ _ h
      | exact ih _ _ _ _ _ (not_mem_set _ _ _ _ h (by decide))
      | exact ih _ _ _ _ _
          (not_mem_set _ _ _ _ (not_mem_set _ _ _ _ h (by decide)) (by decide))
      | exact ih _ _ _ _ _ (not_mem_setRange _ _ _ _ _ h (by decide))
      | exact ih _ _ _ _ _
          (not_mem_setRange _ _ _ _ _ (not_mem_set _ _ _ _ h (by decide))
            (by decide))
      | exact ih _ _ _ _ _
          (not_mem_setRange _ _ _ _ _ h (by split_ifs <;> decide))
      | exact not_mem_setRange _ _ _ _ _ h (by decide)

theorem rowHl_no_matched (s : SynDef) (inc : Bool) (render : List Nat) :
    HL.matched ∉ (rowHl s inc render).1 := by
  unfold rowHl
  apply synLoop_no_matched
  intro h
  exact absurd (List.mem_replicate.mp h).2 (by decide)

theorem noMatch_set (rows : List ERow) (idx : Nat) (r : ERow)
    (h : NoMatchRows rows) (hr : HL.matched ∉ r.hl) :
    NoMatchRows (rows.set idx r) := by
  intro x hx
  rcases List.mem_or_eq_of_mem_set hx with hx | rfl
  · exact h x hx
  · exact hr

theorem updateGo_noMatch (s : SynDef) :
    ∀ (fuel : Nat) (rows : List ERow) (idx : Nat),
      NoMatchRows rows → NoMatchRows (updateSyntaxGo s fuel rows idx) := by
  intro fuel
  induction fuel with
  | zero => intro rows idx h; simpa [updateSyntaxGo] using h
  | succ fuel ih =>
    intro rows idx h
    simp only [updateSyntaxGo]
    split_ifs
    · exact ih _ _ (noMatch_set _ _ _ h (rowHl_no_matched s _ _))
    · exact noMatch_set _ _ _ h (rowHl_no_matched s _ _)

theorem set_rowAt_self (rows : List ERow) (l : Nat) :
    rows.set l (rowAt rows l) = rows := by
  by_cases h : l < rows.length
  · apply List.ext_getElem?
    intro n
    by_cases hn : n = l
    · subst hn
      rw [List.getElem?_set_self h, List.getElem?_eq_getElem h]
      unfold rowAt
      rw [List.getD_eq_getElem?_getD, List.getElem?_eq_getElem h]
      rfl
    · exact List.getElem?_set_ne (fun he => hn he.symm)
  · rw [List.set_eq_of_length_le (le_of_not_lt h)]

theorem setRowHl_cancel (rows : List ERow) (l : Nat) (h1 : List HL) :
    setRowHl (setRowHl rows l h1) l ((rowAt rows l).hl) = rows := by
  by_cases h : l < rows.length
  · unfold setRowHl
    rw [rowAt_set_self rows l _ h, List.set_set]
    have he : ({ { rowAt rows l with hl := h1 } with
        hl := (rowAt rows l).hl } : ERow) = rowAt rows l := rfl
    rw [he, set_rowAt_self]
  · have hle : rows.length ≤ l := le_of_not_lt h
    unfold setRowHl
    rw [List.set_eq_of_length_le hle, List.set_eq_of_length_le hle]


theorem findApply_inv (q : List Nat) (fs : FindState) (st : EState)
    (hsv : fs.saved = Option.none) (h : NoMatchRows st.rows) :
    NoMatchRows (restoreSaved (findApply q fs st).1
      ((findApply q fs st).2).rows) := by
  unfold findApply
  cases hfind : findSearchGo q st.rows fs.direction st.rows.length
      fs.last_match with
  | none => simpa [restoreSaved, hsv] using h
  | some co =>
    simp only [restoreSaved]
    rw [setRowHl_cancel]
    exact h

theorem findCb_inv (q : List Nat) (k : Nat) (fs : FindState) (st : EState)
    (hinv : NoMatchRows (restoreSaved fs st.rows)) :
    NoMatchRows (restoreSaved (editorFindCallback q k fs st).1
      ((editorFindCallback q k fs st).2).rows) ∧
    ((k = 13 ∨ k = 27) →
      (editorFindCallback q k fs st).1.saved = Option.none ∧
      NoMatchRows ((editorFindCallback q k fs st).2).rows) := by
  by_cases hk : k = 13 ∨ k = 27
  · refine ⟨?_, fun _ => ⟨?_, ?_⟩⟩
    · simp only [editorFindCallback, if_pos hk]
      simpa [restoreSaved] using hinv
    · simp [editorFindCallback, if_pos hk]
    · simp only [editorFindCallback, if_pos hk]
      simpa using hinv
  · refine ⟨?_, fun hk' => absurd hk' hk⟩
    simp only [editorFindCallback, if_neg hk]
    apply findApply_inv
    · split_ifs <;> rfl
    · simpa using hinv

theorem promptLoop_noMatch :
    ∀ (ks : List Nat) (st : EState) (fs : FindState) (buf : List Nat),
      NoMatchRows (restoreSaved fs st.rows) →
      (∀ st' fs', editorPromptLoop PromptKind.search true st fs buf ks =
          PromptOut.canceled st' fs' → NoMatchRows st'.rows) ∧
      (∀ st' fs' b, editorPromptLoop PromptKind.search true st fs buf ks =
          PromptOut.accepted st' fs' b → NoMatchRows st'.rows) := by
  intro ks
  induction ks with
  | nil =>
    intro st fs buf _
    constructor
    · intro st' fs' h
      simp [editorPromptLoop] at h
    · intro st' fs' b h
      simp [editorPromptLoop] at h
  | cons c ks ih =>
    intro st fs buf hinv
    constructor
    · intro st' fs' h
      simp only [editorPromptLoop, runCb, ite_true] at h
      split_ifs at h <;>
        first
        | (exact ((ih _ _ _
            (findCb_inv _ _ _ _ (by simpa [editorScroll] using hinv)).1).1)
            st' fs' h)
        | (cases h
           exact ((findCb_inv _ _ _ _
             (by simpa [editorScroll] using hinv)).2 (by tauto)).2)
    · intro st' fs' b h
      simp only [editorPromptLoop, runCb, ite_true] at h
      split_ifs at h <;>
        first
        | (exact ((ih _ _ _
            (findCb_inv _ _ _ _ (by simpa [editorScroll] using hinv)).1).2)
            st' fs' b h)
        | (cases h
           exact ((findCb_inv _ _ _ _
             (by simpa [editorScroll] using hinv)).2 (by tauto)).2)

/-- Claim C9: (a) rehighlighting never introduces the Match class —
editorUpdateSyntax maps a Match-free row store to a Match-free row
store (and the highlighter itself never emits Match), so before any
find callback has run no row's hl contains Match; (b) when a find
session started on a Match-free row store finishes by Enter (accept)
or ESC (cancel), the resulting row store is Match-free again: the
callback's finalisation restores the saved pre-match highlighting of
the previously matched row. -/
theorem c9_no_match_invariant :
    (∀ (syn : Option SynDef) (rows : List ERow) (idx : Nat),
      NoMatchRows rows → NoMatchRows (editorUpdateSyntaxAt syn rows idx)) ∧
    (∀ (st : EState) (ks : List Nat) (st' : EState), NoMatchRows st.rows →
      editorFind st ks = Option.some st' → NoMatchRows st'.rows) := by
  constructor
  · intro syn rows idx h
    unfold editorUpdateSyntaxAt
    split_ifs with hlt
    · cases syn with
      | none =>
        apply noMatch_set _ _ _ h
        intro hmem
        exact absurd (List.mem_replicate.mp hmem).2 (by decide)
      | some s => exact updateGo_noMatch s _ rows idx h
    · exact h
  · intro st ks st' h heq
    have hinv : NoMatchRows (restoreSaved initialFindState st.rows) := by
      simpa [restoreSaved, initialFindState] using h
    unfold editorFind at heq
    cases hp : editorPromptLoop PromptKind.search true st initialFindState [] ks with
    | blocked s1 f1 b1 => rw [hp] at heq; simp at heq
    | canceled s1 f1 =>
      rw [hp] at heq
      simp only [Option.some.injEq] at heq
      have := (promptLoop_noMatch ks st initialFindState [] hinv).1 s1 f1 hp
      rw [← heq]
      simpa using this
    | accepted s1 f1 b1 =>
      rw [hp] at heq
      simp only [Option.some.injEq] at heq
      have := (promptLoop_noMatch ks st initialFindState [] hinv).2 s1 f1 b1 hp
      rw [← heq]
      exact this

/-- Witness for claim C9: the Match-free three-row buffer of the find
scenario stays Match-free through a rehighlighting of row 0 and
through a find session cancelled immediately with ESC. -/
theorem c9_witness :
    NoMatchRows (editorUpdateSyntaxAt (Option.some CSyn) c3init.rows 0) ∧
    NoMatchRows ((editorFind c3init [27]).getD default).rows :=
  ⟨c9_no_match_invariant.1 (Option.some CSyn) c3init.rows 0 (by decide),
   c9_no_match_invariant.2 c3init [27] ((editorFind c3init [27]).getD default)
     (by decide) (by decide)⟩

theorem crT_two (x y : Nat) (ys : List Nat) :
    crOnlyInTerminators (x :: y :: ys) = true ↔
      ((x ≠ 13 ∨ y = 10 ∨ y = 13) ∧ crOnlyInTerminators (y :: ys) = true) := by
  simp [crOnlyInTerminators, or_assoc]

theorem crT_suffix : ∀ (xs ys : List Nat),
    crOnlyInTerminators (xs ++ ys) = true → crOnlyInTerminators ys = true := by
  intro xs
  induction xs with
  | nil => intro ys h; simpa using h
  | cons x xs ih =>
    intro ys h
    apply ih
    cases hxy : xs ++ ys with
    | nil => rfl
    | cons z zs =>
      have h' : crOnlyInTerminators (x :: z :: zs) = true := by
        rw [← hxy]
        simpa using h
      exact ((crT_two x z zs).mp h').2

theorem crT_cons10 (bs : List Nat) :
    crOnlyInTerminators (10 :: bs) = crOnlyInTerminators bs := by
  cases bs with
  | nil => rfl
  | cons b bs => simp [crOnlyInTerminators]

theorem crT_13_then (l1 : List Nat) : ∀ (b : Nat) (l2 : List Nat),
    crOnlyInTerminators (l1 ++ 13 :: b :: l2) = true → b = 10 ∨ b = 13 := by
  induction l1 with
  | nil =>
    intro b l2 h
    rcases ((crT_two 13 b l2).mp (by simpa using h)).1 with h' | h'
    · exact absurd rfl h'
    · exact h'
  | cons x l1 ih =>
    intro b l2 h
    apply ih b l2
    cases hl : l1 ++ 13 :: b :: l2 with
    | nil => simp at hl
    | cons z zs =>
      have h' : crOnlyInTerminators (x :: z :: zs) = true := by
        rw [← hl]
        simpa using h
      exact ((crT_two x z zs).mp h').2

theorem dropWhile_replicate_append {p : Nat → Bool} (hp : p 13 = true) :
    ∀ (k : Nat) (m : List Nat),
      (List.replicate k 13 ++ m).dropWhile p = m.dropWhile p := by
  intro k
  induction k with
  | zero => intro m; simp
  | succ k ih =>
    intro m
    rw [List.replicate_succ, List.cons_append, List.dropWhile_cons, if_pos hp]
    exact ih m

theorem dropWhile_eq_self_of_all {p : Nat → Bool} (m : List Nat)
    (h : ∀ x ∈ m, p x = false) : m.dropWhile p = m := by
  cases m with
  | nil => rfl
  | cons x xs =>
    rw [List.dropWhile_cons, if_neg (by rw [h x (by simp)]; simp)]

theorem rstrip_crs (l : List Nat) (k : Nat) (h13 : 13 ∉ l) (h10 : 10 ∉ l) :
    rstripCRLF (l.reverse ++ List.replicate k 13) = l.reverse := by
  unfold rstripCRLF
  rw [List.reverse_append, List.reverse_replicate, List.reverse_reverse]
  rw [dropWhile_replicate_append (by simp) k l]
  rw [dropWhile_eq_self_of_all l (fun x hx => by
    simp only [Bool.decide_or, Bool.or_eq_false_iff, decide_eq_false_iff_not]
    exact ⟨fun he => h10 (he ▸ hx), fun he => h13 (he ▸ hx)⟩)]

theorem rowsToStringL_cons (x : List Nat) (xs : List (List Nat)) :
    rowsToStringL (x :: xs) = (x ++ [10]) ++ rowsToStringL xs := by
  simp [rowsToStringL]

theorem specC1_split (A bs : List Nat) :
    specC1 (A ++ 10 :: bs) =
      A.filter (fun b => decide (b ≠ 13)) ++ 10 :: specC1 bs := by
  unfold specC1
  rw [if_neg (by simp)]
  cases bs with
  | nil =>
    have hlast : (A ++ 10 :: ([] : List Nat)).getLast? = Option.some 10 := by
      rw [List.getLast?_append]
      rfl
    rw [if_pos hlast]
    simp [List.filter_append]
  | cons b bs' =>
    have hlast : (A ++ 10 :: b :: bs').getLast? = (b :: bs').getLast? := by
      rw [List.getLast?_append, List.getLast?_cons_cons]
      cases hbl : (b :: bs').getLast? with
      | none => simp [List.getLast?_eq_none_iff] at hbl
      | some v => rfl
    rw [hlast]
    by_cases h10 : (b :: bs').getLast? = Option.some 10
    · rw [if_pos h10, if_neg (by simp)]
      simp [List.filter_append]
    · rw [if_neg h10, if_neg (by simp)]
      simp [List.filter_append]

theorem filter_rev_crs (rest : List Nat) (k : Nat) (h13 : 13 ∉ rest) :
    (rest.reverse ++ List.replicate k 13).filter (fun b => decide (b ≠ 13)) =
      rest.reverse := by
  rw [List.filter_append, List.filter_replicate]
  rw [if_neg (by simp), List.append_nil]
  apply List.filter_eq_self.mpr
  intro a ha
  simp only [decide_eq_true_eq]
  intro he
  exact h13 (he ▸ List.mem_reverse.mp ha)

theorem openAux_spec : ∀ (input : List Nat) (k : Nat) (rest : List Nat),
    13 ∉ rest → 10 ∉ rest →
    crOnlyInTerminators ((List.replicate k 13 ++ rest).reverse ++ input) =
      true →
    rowsToStringL (openRowsAux (List.replicate k 13 ++ rest) input) =
      specC1 ((List.replicate k 13 ++ rest).reverse ++ input) := by
  intro input
  induction input with
  | nil =>
    intro k rest h13 h10 _
    simp only [List.append_nil]
    have hrev : (List.replicate k 13 ++ rest).reverse =
        rest.reverse ++ List.replicate k 13 := by
      rw [List.reverse_append, List.reverse_replicate]
    by_cases hacc : (List.replicate k 13 ++ rest).length = 0
    · have hk : k = 0 ∧ rest = [] := by
        simp only [List.length_append, List.length_replicate] at hacc
        exact ⟨by omega, List.eq_nil_of_length_eq_zero (by omega)⟩
      rcases hk with ⟨rfl, rfl⟩
      simp [openRowsAux, rowsToStringL, specC1]
    · have hstep : openRowsAux (List.replicate k 13 ++ rest) [] =
          [rstripCRLF (List.replicate k 13 ++ rest).reverse] := by
        unfold openRowsAux
        rw [if_neg hacc]
      rw [hstep, rowsToStringL_cons, hrev, rstrip_crs rest k h13 h10]
      unfold specC1
      rw [if_neg (by
        simp only [List.length_append, List.length_reverse,
          List.length_replicate]
        simp only [List.length_append, List.length_replicate] at hacc
        omega)]
      rw [filter_rev_crs rest k h13]
      have hlast : (rest.reverse ++ List.replicate k 13).getLast? ≠
          Option.some 10 := by
        cases k with
        | zero =>
          simp only [List.replicate_zero, List.append_nil]
          rw [List.getLast?_reverse]
          have hrne : rest ≠ [] := by
            intro he
            apply hacc
            simp [he]
          obtain ⟨r, rs, hre2⟩ := List.exists_cons_of_ne_nil hrne
          rw [hre2]
          simp only [List.head?_cons]
          intro he
          simp only [Option.some.injEq] at he
          apply h10
          rw [hre2, he]
          simp
        | succ k' =>
          rw [List.replicate_succ', ← List.append_assoc,
            List.getLast?_append]
          simp
      rw [if_neg hlast]
      simp [rowsToStringL]
  | cons b bs ih =>
    intro k rest h13 h10 hok
    by_cases hb10 : b = 10
    · subst hb10
      have hstep : openRowsAux (List.replicate k 13 ++ rest) (10 :: bs) =
          rstripCRLF (List.replicate k 13 ++ rest).reverse ::
            openRowsAux [] bs := by
        simp [openRowsAux]
      rw [hstep, rowsToStringL_cons]
      have hrev : (List.replicate k 13 ++ rest).reverse =
          rest.reverse ++ List.replicate k 13 := by
        rw [List.reverse_append, List.reverse_replicate]
      have hstrip : rstripCRLF (List.replicate k 13 ++ rest).reverse =
          rest.reverse := by
        rw [hrev]
        exact rstrip_crs rest k h13 h10
      rw [hstrip, hrev, specC1_split]
      rw [filter_rev_crs rest k h13]
      have hok' : crOnlyInTerminators bs = true := by
        have h1 := crT_suffix _ _ hok
        rwa [crT_cons10] at h1
      have hih := ih 0 [] (by simp) (by simp) (by simpa using hok')
      simp only [List.replicate_zero, List.nil_append, List.append_nil,
        List.reverse_nil] at hih
      rw [hih]
      simp
    · have hstep : openRowsAux (List.replicate k 13 ++ rest) (b :: bs) =
          openRowsAux (b :: (List.replicate k 13 ++ rest)) bs := by
        simp [openRowsAux, hb10]
      rw [hstep]
      by_cases hb13 : b = 13
      · subst hb13
        have hacc : (13 :: (List.replicate k 13 ++ rest)) =
            List.replicate (k + 1) 13 ++ rest := by
          simp [List.replicate_succ]
        have hcomb : (List.replicate (k + 1) 13 ++ rest).reverse ++ bs =
            (List.replicate k 13 ++ rest).reverse ++ 13 :: bs := by
          rw [List.reverse_append, List.reverse_append, List.reverse_replicate,
            List.reverse_replicate, List.replicate_succ']
          simp [List.append_assoc]
        rw [hacc, ih (k + 1) rest h13 h10 (by rw [hcomb]; exact hok), hcomb]
      · cases k with
        | succ k' =>
          exfalso
          have hcomb : (List.replicate (k' + 1) 13 ++ rest).reverse ++ b :: bs =
              (rest.reverse ++ List.replicate k' 13) ++ 13 :: b :: bs := by
            rw [List.reverse_append, List.reverse_replicate,
              List.replicate_succ']
            simp [List.append_assoc]
          rw [hcomb] at hok
          rcases crT_13_then _ b bs hok with h | h
          · exact hb10 h
          · exact hb13 h
        | zero =>
          simp only [List.replicate_zero, List.nil_append] at hok ⊢
          have h13' : 13 ∉ (b :: rest) := by
            intro hm
            rcases List.mem_cons.mp hm with he | hm
            · exact hb13 he.symm
            · exact h13 hm
          have h10' : 10 ∉ (b :: rest) := by
            intro hm
            rcases List.mem_cons.mp hm with he | hm
            · exact hb10 he.symm
            · exact h10 hm
          have hcomb : (List.replicate 0 13 ++ (b :: rest)).reverse ++ bs =
              rest.reverse ++ b :: bs := by
            simp
          have hih := ih 0 (b :: rest) h13' h10'
            (by rw [hcomb]; exact hok)
          rw [hcomb] at hih
          simpa using hih

theorem set_getD_self {α : Type _} (l : List α) (k : Nat) (d : α) :
    l.set k (l.getD k d) = l := by
  by_cases h : k < l.length
  · apply List.ext_getElem?
    intro n
    by_cases hn : n = k
    · subst hn
      rw [List.getElem?_set_self h, List.getD_eq_getElem?_getD,
        List.getElem?_eq_getElem h]
      rfl
    · exact List.getElem?_set_ne (fun he => hn he.symm)
  · rw [List.set_eq_of_length_le (le_of_not_lt h)]

theorem mapChars_set (rows : List ERow) (k : Nat) (r' : ERow)
    (h : r'.chars = (rowAt rows k).chars) :
    (rows.set k r').map (·.chars) = rows.map (·.chars) := by
  rw [List.map_set, h]
  by_cases hk : k < rows.length
  · have he : (rowAt rows k).chars = (rows.map (·.chars)).getD k [] := by
      unfold rowAt
      rw [List.getD_eq_getElem?_getD, List.getD_eq_getElem?_getD,
        List.getElem?_map, List.getElem?_eq_getElem hk]
      rfl
    rw [he, set_getD_self]
  · rw [List.set_eq_of_length_le (by simpa using le_of_not_lt hk)]

theorem updateGo_chars (s : SynDef) :
    ∀ (fuel : Nat) (rows : List ERow) (idx : Nat),
      (updateSyntaxGo s fuel rows idx).map (·.chars) = rows.map (·.chars) := by
  intro fuel
  induction fuel with
  | zero => intro rows idx; simp [updateSyntaxGo]
  | succ fuel ih =>
    intro rows idx
    simp only [updateSyntaxGo]
    split_ifs
    · rw [ih]
      exact mapChars_set _ _ _ rfl
    · exact mapChars_set _ _ _ rfl

theorem updateSyntaxAt_chars (syn : Option SynDef) (rows : List ERow)
    (idx : Nat) :
    (editorUpdateSyntaxAt syn rows idx).map (·.chars) =
      rows.map (·.chars) := by
  unfold editorUpdateSyntaxAt
  split_ifs with h
  · cases syn with
    | none => exact mapChars_set _ _ _ rfl
    | some s => exact updateGo_chars s _ rows idx
  · rfl

theorem updateRow_chars (syn : Option SynDef) (rows : List ERow) (idx : Nat) :
    (editorUpdateRow syn rows idx).map (·.chars) = rows.map (·.chars) := by
  unfold editorUpdateRow
  rw [updateSyntaxAt_chars]
  exact mapChars_set _ _ _ rfl

theorem insertRow_end_chars (st : EState) (line : List Nat) :
    (editorInsertRow st st.numrows line).rows.map (·.chars) =
      st.rows.map (·.chars) ++ [line] := by
  unfold editorInsertRow
  rw [if_neg (by simp only [EState.numrows]; omega)]
  simp only [EState.numrows, Int.toNat_natCast]
  rw [updateRow_chars, List.insertIdx_length_self]
  simp

theorem fold_open_chars : ∀ (lines : List (List Nat)) (st : EState),
    ((lines.foldl (fun s l => editorInsertRow s s.numrows l) st).rows.map
      (·.chars)) = st.rows.map (·.chars) ++ lines := by
  intro lines
  induction lines with
  | nil => intro st; simp
  | cons l ls ih =>
    intro st
    simp only [List.foldl_cons]
    rw [ih, insertRow_end_chars]
    simp

theorem selectHighlight_rows_nil (st : EState) (h : st.rows = []) :
    (selectHighlight st).rows = [] := by
  unfold selectHighlight
  cases hf : st.filename with
  | none => simpa using h
  | some f =>
    dsimp only
    split_ifs
    · simp [h]
    · simpa using h

theorem insertRow_filename (st : EState) (a : Int) (l : List Nat) :
    (editorInsertRow st a l).filename = st.filename := by
  unfold editorInsertRow
  split_ifs <;> rfl

theorem fold_open_filename : ∀ (lines : List (List Nat)) (st : EState),
    (lines.foldl (fun s l => editorInsertRow s s.numrows l) st).filename =
      st.filename := by
  intro lines
  induction lines with
  | nil => intro st; rfl
  | cons l ls ih =>
    intro st
    simp only [List.foldl_cons]
    rw [ih, insertRow_filename]

theorem selectHighlight_filename (st : EState) :
    (selectHighlight st).filename = st.filename := by
  unfold selectHighlight
  cases hf : st.filename with
  | none => rfl
  | some f =>
    dsimp only
    split_ifs <;> simp [hf]

theorem editorOpen_filename (st : EState) (f input : List Nat) :
    (editorOpen st f input).filename = Option.some f := by
  unfold editorOpen
  rw [fold_open_filename, selectHighlight_filename]

theorem editorOpen_chars (st : EState) (f input : List Nat)
    (h : st.rows = []) :
    (editorOpen st f input).rows.map (·.chars) = openRows input := by
  have h2 : (selectHighlight { st with filename := Option.some f }).rows =
      [] := selectHighlight_rows_nil _ (by simpa using h)
  have h3 := fold_open_chars (openRows input)
    (selectHighlight { st with filename := Option.some f })
  unfold editorOpen
  rw [h3, h2]
  simp

/-- Claim C1 as amended: for every input file in which every CR byte is
immediately followed by another CR or by an LF, or ends the file —
exactly the files whose CRs all sit inside the trailing CR/LF runs
that editorOpen's strip loop removes from each line — loading the
file into an empty buffer and then saving yields a byte sequence equal
to the input's content with every CR stripped and a trailing LF
appended after the last line (each in-memory row is serialized as its
chars followed by a single LF); the dirty counter is 0 after the load,
and a fully successful save again leaves the dirty counter at 0 and
reports the serialized byte count. -/
theorem c1_load_save_roundtrip (st : EState) (f input : List Nat)
    (hrows : st.rows = []) (hcr : crOnlyInTerminators input = true) :
    editorRowsToString (editorOpen st f input).rows = specC1 input ∧
    (editorOpen st f input).dirty = 0 ∧
    (∀ fs : FsSpec, fs.openOk = true → fs.truncOk = true →
      fs.writeRet = rowsTotalLen (editorOpen st f input).rows →
      editorSave (editorOpen st f input) [] fs = Option.some
        { (editorOpen st f input) with
          dirty := 0,
          statusmsg :=
            StatusMsg.saveOk (rowsTotalLen (editorOpen st f input).rows) }) := by
  refine ⟨?_, ?_, ?_⟩
  · unfold editorRowsToString
    rw [editorOpen_chars st f input hrows]
    have h := openAux_spec input 0 [] (by simp) (by simp) (by simpa using hcr)
    simpa [openRows] using h
  · rfl
  · intro fs h1 h2 h3
    have hne : ¬((editorOpen st f input).filename = Option.none) := by
      rw [editorOpen_filename]
      simp
    simp [editorSave, hne, doSave, h1, h2, h3]

/-- Witness for claim C1 at the concrete file a CR CR LF b (both CRs
inside the trailing CR/LF run of the first line) loaded into a fresh
editor: the saved bytes are a LF b LF, the load leaves dirty at 0, and
a fully successful save (write returns the serialized length 4)
reports 4 bytes with dirty 0. -/
theorem c1_witness :
    editorRowsToString (editorOpen default [116] [97, 13, 13, 10, 98]).rows =
      specC1 [97, 13, 13, 10, 98] ∧
    (editorOpen default [116] [97, 13, 13, 10, 98]).dirty = 0 ∧
    editorSave (editorOpen default [116] [97, 13, 13, 10, 98]) []
        ⟨true, true, 4⟩ =
      Option.some
        { (editorOpen default [116] [97, 13, 13, 10, 98]) with
          dirty := 0,
          statusmsg := StatusMsg.saveOk
            (rowsTotalLen
              (editorOpen default [116] [97, 13, 13, 10, 98]).rows) } :=
  ⟨(c1_load_save_roundtrip default [116] [97, 13, 13, 10, 98] rfl
     (by decide)).1,
   (c1_load_save_roundtrip default [116] [97, 13, 13, 10, 98] rfl
     (by decide)).2.1,
   (c1_load_save_roundtrip default [116] [97, 13, 13, 10, 98] rfl
     (by decide)).2.2 ⟨true, true, 4⟩ rfl rfl (by decide)⟩
